import Mathlib

/-!
# Hotel booking availability service

A shallow embedding of `src/hotel-booking/src/services/availabilityService.js`.

Modelling conventions:
* an instant (a JavaScript `Date`) is an integer number of milliseconds;
* a calendar day is a fixed-length bucket of `msPerDay` instants, so the
  local midnight of an instant `t` is `startOfDay t` and the textual day key
  `YYYY-MM-DD` is represented by the day index `dayOf t`;
* a JavaScript object used as a dictionary is an association list in
  insertion order with pairwise distinct keys (`DayMap`);
* `localStorage` is passed explicitly as a `Snapshot`, and `Date.now()` is
  an explicit argument.
-/

namespace HotelBooking

/-! ## Time and day keys -/

/-- Number of milliseconds in one calendar day. -/
def msPerDay : Int := 86400000

/-- The constant `totalRooms` of `calculateAvailabilityInternal`. -/
def totalRooms : Int := 133

/-- Day index of an instant; stands for the key `YYYY-MM-DD` built from
`getFullYear()`, `getMonth() + 1` and `getDate()`. -/
def dayOf (t : Int) : Int := t / msPerDay

/-- Local midnight of the day of `t`: `new Date(y, m, d)`, also the effect of
`setHours(0, 0, 0, 0)`. -/
def startOfDay (t : Int) : Int := dayOf t * msPerDay

/-- Last millisecond of the day of `t`: `new Date(y, m, d, 23, 59, 59, 999)`. -/
def endOfDay (t : Int) : Int := startOfDay t + (msPerDay - 1)

/-- Effect of `d.setDate(d.getDate() + 1)` on an instant. -/
def nextDay (t : Int) : Int := t + msPerDay

/-- Number of iterations of a loop `while (cur <= last) { ...; cur = nextDay cur }`. -/
def loopFuel (cur last : Int) : Nat := ((last - cur) / msPerDay + 1).toNat

/-! ## Dictionaries keyed by day -/

/-- A JavaScript object keyed by day, as the list of its entries in insertion order. -/
abbrev DayMap := List (Int × Int)

/-- The test `key in obj`. -/
def mapHas (m : DayMap) (k : Int) : Bool := m.any (fun p => p.1 == k)

/-- The read `obj[key]`, `none` standing for `undefined`. -/
def mapGet (m : DayMap) (k : Int) : Option Int :=
  (m.find? (fun p => p.1 == k)).map Prod.snd

/-- The write `obj[key] = v`: an existing key keeps its position, a new key goes last. -/
def mapSet (m : DayMap) (k v : Int) : DayMap :=
  if mapHas m k then m.map (fun p => if p.1 == k then (k, v) else p) else m ++ [(k, v)]

/-- The keys `Object.keys(obj)`. -/
def mapKeys (m : DayMap) : List Int := m.map Prod.fst

/-! ## Bookings and the persisted snapshot -/

/-- The two booking statuses the service distinguishes, and any other value. -/
inductive BookingStatus where
  | pencil
  | confirmed
  | other
  deriving DecidableEq

/-- The candidate passed to `saveBooking`: the form data with `startDate`,
`endDate` and `createdAt` (instants). -/
structure BookingData where
  programTitle : String
  programType : String
  numberOfRooms : Int
  bookingStatus : BookingStatus
  startDate : Int
  endDate : Int
  checkInTime : String
  checkOutTime : String
  createdAt : Int
  deriving DecidableEq

/-- A stored booking: the candidate's fields and the `id`. -/
structure Booking extends BookingData where
  id : Int
  deriving DecidableEq

/-- The content of `localStorage` under `BOOKINGS_STORAGE_KEY`: nothing, a
text that `JSON.parse(...).map(...)` rejects, or the serialised booking list
(represented by the list `getBookings` reads from it). -/
inductive Snapshot where
  | absent
  | unparsable (raw : String)
  | bookings (records : List Booking)
  deriving DecidableEq

/-- The function `getBookings`: an absent item and a parse error both give `[]`. -/
def getBookings : Snapshot → List Booking
  | Snapshot.absent => []
  | Snapshot.unparsable _ => []
  | Snapshot.bookings records => records

/-! ## Availability calculation -/

/-- The first loop of `calculateAvailabilityInternal` (lines 31-36): every day
from `cur` up to `last` gets the count 0. -/
def initDayMap : Nat → Int → Int → DayMap → DayMap
  | 0, _, _, m => m
  | fuel + 1, cur, last, m =>
    if cur ≤ last then initDayMap fuel (nextDay cur) last (mapSet m (dayOf cur) 0)
    else m

/-- The inner loop of `calculateAvailabilityInternal` (lines 52-59) for one
booking: every day from `iter` up to `effEnd` that lies between `checkIn` and
`checkOut` and is a key of the map gets `rooms` added. -/
def addBookingDays : Nat → Int → Int → Int → Int → Int → DayMap → DayMap
  | 0, _, _, _, _, _, m => m
  | fuel + 1, iter, effEnd, checkIn, checkOut, rooms, m =>
    if iter ≤ effEnd then
      addBookingDays fuel (nextDay iter) effEnd checkIn checkOut rooms
        (if iter ≥ checkIn ∧ iter ≤ checkOut then
          (if mapHas m (dayOf iter) then
            mapSet m (dayOf iter) ((mapGet m (dayOf iter)).getD 0 + rooms)
           else m)
         else m)
    else m

/-- The body of `existingBookingsList.forEach` (lines 38-60) for one booking. -/
def applyBooking (checkInDateTime checkOutDateTime : Int) (m : DayMap) (booking : Booking) :
    DayMap :=
  if booking.endDate ≤ checkInDateTime ∨ booking.startDate ≥ checkOutDateTime then m
  else
    addBookingDays
      (loopFuel (startOfDay (max booking.startDate (startOfDay checkInDateTime)))
        (startOfDay (min booking.endDate (endOfDay (startOfDay checkOutDateTime)))))
      (startOfDay (max booking.startDate (startOfDay checkInDateTime)))
      (startOfDay (min booking.endDate (endOfDay (startOfDay checkOutDateTime))))
      (startOfDay checkInDateTime) (startOfDay checkOutDateTime)
      booking.numberOfRooms m

/-- The dictionary `dateBookingMap` after lines 23-60: booked rooms per day. -/
def dateBookingMap (startDateTime endDateTime : Int) (existingBookingsList : List Booking) :
    DayMap :=
  existingBookingsList.foldl (applyBooking startDateTime endDateTime)
    (initDayMap (loopFuel (startOfDay startDateTime) (startOfDay endDateTime))
      (startOfDay startDateTime) (startOfDay endDateTime) [])

/-- Lines 62-69: the pair of `isoDailyAvailability` and `minAvailableRooms`
after the loop over `Object.entries(dateBookingMap)`. -/
def isoDailyAvailability (booked : DayMap) : DayMap × Int :=
  booked.foldl
    (fun acc entry =>
      (mapSet acc.1 entry.1 (totalRooms - entry.2), min acc.2 (totalRooms - entry.2)))
    ([], totalRooms)

/-- Lines 71-76: `dailyAvailabilityForDisplay`, filled in the sorted order of
the keys (the display key of a day is again represented by its day index). -/
def dailyAvailabilityForDisplay (iso : DayMap) : DayMap :=
  ((mapKeys iso).insertionSort (fun a b => a ≤ b)).foldl
    (fun disp k => mapSet disp k ((mapGet iso k).getD 0)) []

/-- The object returned by `calculateAvailabilityInternal` (the two formatted
time strings `checkInTime` and `checkOutTime` are left out). -/
structure AvailabilityResult where
  available : Bool
  availableRooms : Int
  requestedRooms : Int
  dailyAvailability : DayMap
  startDate : Int
  endDate : Int
  deriving DecidableEq

/-- The function `calculateAvailabilityInternal`. -/
def calculateAvailabilityInternal (startDateTime endDateTime numberOfRooms : Int)
    (existingBookingsList : List Booking) : AvailabilityResult :=
  AvailabilityResult.mk
    (decide
      ((isoDailyAvailability (dateBookingMap startDateTime endDateTime existingBookingsList)).2
        ≥ numberOfRooms))
    (isoDailyAvailability (dateBookingMap startDateTime endDateTime existingBookingsList)).2
    numberOfRooms
    (dailyAvailabilityForDisplay
      (isoDailyAvailability (dateBookingMap startDateTime endDateTime existingBookingsList)).1)
    startDateTime endDateTime

/-- The function `checkRoomAvailability`. -/
def checkRoomAvailability (store : Snapshot) (startDateTime endDateTime numberOfRooms : Int) :
    AvailabilityResult :=
  calculateAvailabilityInternal startDateTime endDateTime numberOfRooms (getBookings store)

/-- The function `checkRoomAvailabilityWithoutBookings`. -/
def checkRoomAvailabilityWithoutBookings (store : Snapshot)
    (startDateTime endDateTime numberOfRooms : Int) (excludeBookingIds : List Int) :
    AvailabilityResult :=
  calculateAvailabilityInternal startDateTime endDateTime numberOfRooms
    ((getBookings store).filter (fun booking => !excludeBookingIds.contains booking.id))

/-! ## Admission -/

/-- The method `Set.prototype.add` on a set of ids kept in insertion order. -/
def setAdd (ids : List Int) (x : Int) : List Int :=
  if ids.contains x then ids else ids ++ [x]

/-- Lines 112-123 of `saveBooking`: the ids of the pencil bookings whose
interval overlaps the new confirmed booking. -/
def idsOfPencilToOverride (bookingData : BookingData) (allCurrentBookings : List Booking) :
    List Int :=
  allCurrentBookings.foldl
    (fun ids b =>
      if b.bookingStatus = BookingStatus.pencil then
        (if bookingData.startDate < b.endDate ∧ bookingData.endDate > b.startDate then
          setAdd ids b.id
         else ids)
      else ids)
    []

/-- Lines 105-131 of `saveBooking`: the pair of `bookingsForCheck` (which is
also `finalBookingsToPersist` before the push) and `pencilBookingsOverridden`. -/
def bookingsForCheck (bookingData : BookingData) (allCurrentBookings : List Booking) :
    List Booking × Bool :=
  if bookingData.bookingStatus = BookingStatus.confirmed then
    (if (idsOfPencilToOverride bookingData allCurrentBookings).length > 0 then
      (allCurrentBookings.filter
        (fun b => !(idsOfPencilToOverride bookingData allCurrentBookings).contains b.id), true)
     else (allCurrentBookings, false))
  else (allCurrentBookings, false)

/-- The errors that `saveBooking` throws. The `Error` of line 156 carries in
its message the number of available rooms and, when pencil bookings were to
be overridden, a suffix. The `ReferenceError` comes from line 146, which reads
`idsOfPencilToOverride`, a `const` of the block of lines 109-131, outside that
block. -/
inductive SaveFailure where
  | insufficientCapacity (availableRooms : Int) (afterOverrideAttempt : Bool)
  | referenceError
  deriving DecidableEq

/-- What a call of `saveBooking` leaves behind: the returned booking or the
thrown error, and the content of `localStorage` after the call. -/
structure SaveOutcome where
  result : Except SaveFailure Booking
  store : Snapshot

/-- The function `saveBooking`; `now` is the value of `Date.now()`. When the
availability test passes, line 144 writes the new list; after that, line 146
throws when `pencilBookingsOverridden` is set, and line 149 returns the new
booking otherwise. -/
def saveBooking (now : Int) (store : Snapshot) (bookingData : BookingData) : SaveOutcome :=
  if (calculateAvailabilityInternal bookingData.startDate bookingData.endDate
      bookingData.numberOfRooms (bookingsForCheck bookingData (getBookings store)).1).available
  then
    SaveOutcome.mk
      (if (bookingsForCheck bookingData (getBookings store)).2 then
        Except.error SaveFailure.referenceError
       else Except.ok (Booking.mk bookingData now))
      (Snapshot.bookings
        ((bookingsForCheck bookingData (getBookings store)).1 ++ [Booking.mk bookingData now]))
  else
    SaveOutcome.mk
      (Except.error
        (SaveFailure.insufficientCapacity
          (calculateAvailabilityInternal bookingData.startDate bookingData.endDate
            bookingData.numberOfRooms
            (bookingsForCheck bookingData (getBookings store)).1).availableRooms
          ((bookingsForCheck bookingData (getBookings store)).2
            && decide (bookingData.bookingStatus = BookingStatus.confirmed))))
      store

/-! ## Update and delete -/

/-- The argument `updatedData` of `updateBooking`: an object that names some
of the fields of a booking (`none` for a field it does not name). -/
structure Patch where
  programTitle : Option String
  programType : Option String
  numberOfRooms : Option Int
  bookingStatus : Option BookingStatus
  startDate : Option Int
  endDate : Option Int
  checkInTime : Option String
  checkOutTime : Option String
  createdAt : Option Int
  id : Option Int
  deriving DecidableEq

/-- The spread `{ ...booking, ...updatedData }` of line 165. -/
def mergePatch (booking : Booking) (updatedData : Patch) : Booking :=
  Booking.mk
    (BookingData.mk
      (updatedData.programTitle.getD booking.programTitle)
      (updatedData.programType.getD booking.programType)
      (updatedData.numberOfRooms.getD booking.numberOfRooms)
      (updatedData.bookingStatus.getD booking.bookingStatus)
      (updatedData.startDate.getD booking.startDate)
      (updatedData.endDate.getD booking.endDate)
      (updatedData.checkInTime.getD booking.checkInTime)
      (updatedData.checkOutTime.getD booking.checkOutTime)
      (updatedData.createdAt.getD booking.createdAt))
    (updatedData.id.getD booking.id)

/-- The method `Array.prototype.findIndex`, `none` standing for `-1`. -/
def findIndex (p : Booking → Bool) : List Booking → Option Nat
  | [] => none
  | b :: rest => if p b then some 0 else (findIndex p rest).map (fun i => i + 1)

/-- What a call of `updateBooking` leaves behind: the returned booking or the
message of the thrown error, and the content of `localStorage` after the call. -/
structure UpdateOutcome where
  result : Except String Booking
  store : Snapshot

/-- The function `updateBooking`. The read `bookings[index]` at an index that
`findIndex` returned always finds a record, so the branch for a missing
record is never taken. -/
def updateBooking (store : Snapshot) (bookingId : Int) (updatedData : Patch) : UpdateOutcome :=
  match findIndex (fun booking => booking.id == bookingId) (getBookings store) with
  | none => UpdateOutcome.mk (Except.error "Booking not found") store
  | some index =>
    match (getBookings store).get? index with
    | none => UpdateOutcome.mk (Except.error "Booking not found") store
    | some existing =>
      UpdateOutcome.mk (Except.ok (mergePatch existing updatedData))
        (Snapshot.bookings ((getBookings store).set index (mergePatch existing updatedData)))

/-- What a call of `deleteBooking` leaves behind: the field `success` of the
returned object and the content of `localStorage` after the call. -/
structure DeleteOutcome where
  success : Bool
  store : Snapshot

/-- The function `deleteBooking`. -/
def deleteBooking (store : Snapshot) (bookingId : Int) : DeleteOutcome :=
  DeleteOutcome.mk true
    (Snapshot.bookings ((getBookings store).filter (fun booking => booking.id != bookingId)))

/-! ## Serialisation of the booking list -/

/-- A date-valued field of a record in memory: a `Date` object for an instant,
or the ISO-8601 text of an instant, which is what `JSON.stringify` writes for
a `Date` and what `JSON.parse` gives back. -/
inductive DateValue where
  | date (ms : Int)
  | isoText (ms : Int)
  deriving DecidableEq

/-- The instant that `new Date(v)` denotes. -/
def DateValue.instant : DateValue → Int
  | DateValue.date ms => ms
  | DateValue.isoText ms => ms

/-- A booking object in memory with the representation of its three date
fields made explicit. -/
structure BookingRecord where
  programTitle : String
  programType : String
  numberOfRooms : Int
  bookingStatus : BookingStatus
  startDate : DateValue
  endDate : DateValue
  checkInTime : String
  checkOutTime : String
  createdAt : DateValue
  id : Int
  deriving DecidableEq

/-- The effect of `JSON.parse(JSON.stringify(v))` on a date-valued field. -/
def DateValue.throughJson : DateValue → DateValue
  | DateValue.date ms => DateValue.isoText ms
  | DateValue.isoText ms => DateValue.isoText ms

/-- The effect of `JSON.parse(JSON.stringify(record))` on a booking object
(lines 144, 167, 175 write, line 10 parses). -/
def BookingRecord.throughJson (r : BookingRecord) : BookingRecord :=
  BookingRecord.mk r.programTitle r.programType r.numberOfRooms r.bookingStatus
    r.startDate.throughJson r.endDate.throughJson r.checkInTime r.checkOutTime
    r.createdAt.throughJson r.id

/-- The function mapped over the parsed list in `getBookings` (lines 10-14):
`startDate` and `endDate` become `Date` objects, every other field is copied. -/
def reviveBooking (booking : BookingRecord) : BookingRecord :=
  BookingRecord.mk booking.programTitle booking.programType booking.numberOfRooms
    booking.bookingStatus (DateValue.date booking.startDate.instant)
    (DateValue.date booking.endDate.instant) booking.checkInTime booking.checkOutTime
    booking.createdAt booking.id

/-- What `getBookings` returns after `localStorage.setItem(key, JSON.stringify(records))`. -/
def readBack (records : List BookingRecord) : List BookingRecord :=
  (records.map BookingRecord.throughJson).map reviveBooking

/-- The booking that a record in memory stands for, each date field taken as
the instant it denotes. -/
def BookingRecord.toBooking (r : BookingRecord) : Booking :=
  Booking.mk
    (BookingData.mk r.programTitle r.programType r.numberOfRooms r.bookingStatus
      r.startDate.instant r.endDate.instant r.checkInTime r.checkOutTime r.createdAt.instant)
    r.id

/-- The object that `bookRooms` passes to `saveBooking` with the id added by
line 142: all three date fields are `Date` objects. -/
def newRecord (bookingData : BookingData) (now : Int) : BookingRecord :=
  BookingRecord.mk bookingData.programTitle bookingData.programType bookingData.numberOfRooms
    bookingData.bookingStatus (DateValue.date bookingData.startDate)
    (DateValue.date bookingData.endDate) bookingData.checkInTime bookingData.checkOutTime
    (DateValue.date bookingData.createdAt) now

/-! ## Combining a date with a time of day -/

/-- The pieces of `timeString.split(':')`, on the characters of the text. -/
def splitColon : List Char → List (List Char)
  | [] => [[]]
  | c :: rest =>
    if c = ':' then [] :: splitColon rest
    else
      match splitColon rest with
      | [] => [[c]]
      | piece :: pieces => (c :: piece) :: pieces

/-- The value of a decimal digit, `none` for any other character. -/
def digitValue (c : Char) : Option Int :=
  if 48 ≤ c.toNat ∧ c.toNat ≤ 57 then some ((c.toNat : Int) - 48) else none

/-- Reads decimal digits onto the accumulator `acc`. -/
def decimalDigits : List Char → Int → Option Int
  | [], acc => some acc
  | c :: rest, acc =>
    match digitValue c with
    | none => none
    | some v => decimalDigits rest (acc * 10 + v)

/-- The value of `Number(text)` for a text of decimal digits (the empty text
gives 0), `none` standing for `NaN`. Signs, fractions, exponents, radix
prefixes and surrounding white space are not followed and read as `NaN`. -/
def decimalNumber (text : List Char) : Option Int := decimalDigits text 0

/-- The function `combineDateAndTime` of `BookingForm.jsx` and
`AdminBookingManager.jsx`. The conversion `Number` of a piece to the integer
that `setHours` uses is the argument `number` (`none` for `NaN`); the returned
`Date` is `some` instant or `none` for an invalid date; `setHours(h, m, 0, 0)`
puts the instant at `h` hours and `m` minutes after the local midnight of the
date, whatever the integers `h` and `m` are. The function has no `throw`, so
the outcome is never `Except.error`. -/
def combineDateAndTime (number : List Char → Option Int) (date : Int) (timeString : String) :
    Except String (Option Int) :=
  Except.ok
    (match (splitColon timeString.data).map number with
    | some hours :: some minutes :: _ =>
      some (startOfDay date + hours * 3600000 + minutes * 60000)
    | _ => none)

/-! ## Specification-level vocabulary -/

/-- The days `a, a + 1, ..., a + n - 1`. -/
def dayRange : Int → Nat → List Int
  | _, 0 => []
  | a, n + 1 => a :: dayRange (a + 1) n

/-- The day sequence of a candidate interval: every day index from the day
of `s` through the day of `e`. -/
def daySequence (s e : Int) : List Int :=
  dayRange (dayOf s) (loopFuel (startOfDay s) (startOfDay e))

/-- A dictionary with the given keys, in that order, and the values `f k`. -/
def tabulate (keys : List Int) (f : Int → Int) : DayMap := keys.map (fun k => (k, f k))

/-- Half-open overlap test of line 42, in its positive form. -/
def overlaps (s e : Int) (b : Booking) : Prop := b.endDate > s ∧ b.startDate < e

instance (s e : Int) (b : Booking) : Decidable (overlaps s e b) := by
  unfold overlaps; infer_instance

/-- The day span of a booking contains the day `d`. -/
def spansDay (b : Booking) (d : Int) : Prop := dayOf b.startDate ≤ d ∧ d ≤ dayOf b.endDate

instance (b : Booking) (d : Int) : Decidable (spansDay b d) := by
  unfold spansDay; infer_instance

/-- Rooms that the bookings counted against the interval `[s, e)` hold on day `d`. -/
def bookedOn (s e : Int) (bookings : List Booking) (d : Int) : Int :=
  ((bookings.filter (fun b => decide (overlaps s e b ∧ spansDay b d))).map
    (fun b => b.numberOfRooms)).sum

/-- Rooms that one booking adds to the day `d` of the interval `[s, e)`. -/
def roomsOn (s e : Int) (b : Booking) (d : Int) : Int :=
  if overlaps s e b ∧ spansDay b d then b.numberOfRooms else 0

/-- The running minimum of lines 63-69 over the listed days, started at `start`,
when day `d` has `g d` rooms booked. -/
def minOver (g : Int → Int) (keys : List Int) (start : Int) : Int :=
  keys.foldl (fun acc d => min acc (totalRooms - g d)) start

/-- Rooms held at the instant `t`: the bookings with `startDate ≤ t < endDate`. -/
def loadAt (bookings : List Booking) (t : Int) : Int :=
  ((bookings.filter (fun b => decide (b.startDate ≤ t ∧ t < b.endDate))).map
    (fun b => b.numberOfRooms)).sum

/-- A call of `saveBooking` threw. -/
def SaveOutcome.failed (o : SaveOutcome) : Bool :=
  match o.result with
  | Except.error _ => true
  | Except.ok _ => false

/-- A call of `saveBooking` threw the error of line 156 for insufficient
capacity. -/
def SaveOutcome.insufficient (o : SaveOutcome) : Bool :=
  match o.result with
  | Except.error (SaveFailure.insufficientCapacity _ _) => true
  | _ => false

/-- The stores that successful `saveBooking` calls build from a store without
bookings, each candidate having between 1 and 133 rooms and a start before
its end. -/
inductive Reachable : Snapshot → Prop where
  | empty (store : Snapshot) (h : getBookings store = []) : Reachable store
  | save (now : Int) (store : Snapshot) (bookingData : BookingData)
      (hprev : Reachable store)
      (hrooms : 1 ≤ bookingData.numberOfRooms ∧ bookingData.numberOfRooms ≤ 133)
      (hdates : bookingData.startDate < bookingData.endDate)
      (hok : (saveBooking now store bookingData).failed = false) :
      Reachable (saveBooking now store bookingData).store

/-- A call of `updateBooking` threw. -/
def UpdateOutcome.failed (o : UpdateOutcome) : Bool :=
  match o.result with
  | Except.error _ => true
  | Except.ok _ => false

/-- A patch that names no field. -/
def emptyPatch : Patch := Patch.mk none none none none none none none none none none

/-- The hour of an instant within its day (`getHours()`). -/
def hourOf (t : Int) : Int := (t % msPerDay) / 3600000

/-- The minute of an instant within its hour (`getMinutes()`). -/
def minuteOf (t : Int) : Int := (t % 3600000) / 60000

/-- The milliseconds of an instant past its minute
(`getSeconds() * 1000 + getMilliseconds()`). -/
def msPastMinute (t : Int) : Int := t % 60000

/-! ## Concrete data -/

/-- Midnight at the start of day `d` of January 2024 (day index `19722 + d`). -/
def jan2024 (d : Int) : Int := (19722 + d) * msPerDay

/-- An instant given by a day index, an hour and a minute. -/
def atTime (day hour minute : Int) : Int := day * msPerDay + hour * 3600000 + minute * 60000

/-- A candidate with the given room count, status and interval. -/
def candidate (rooms : Int) (status : BookingStatus) (s e : Int) : BookingData :=
  BookingData.mk "Workshop" "Other" rooms status s e "00:00" "00:00" 0

/-- A stored booking with the given id, room count, status and interval. -/
def stored (id rooms : Int) (status : BookingStatus) (s e : Int) : Booking :=
  Booking.mk (candidate rooms status s e) id

/-! ## Arithmetic of days -/

theorem dayOf_mul (d : Int) : dayOf (d * msPerDay) = d := by
  unfold dayOf msPerDay; omega

theorem startOfDay_le (t : Int) : startOfDay t ≤ t := by
  unfold startOfDay dayOf msPerDay; omega

theorem dayOf_startOfDay (t : Int) : dayOf (startOfDay t) = dayOf t := by
  unfold startOfDay; exact dayOf_mul _

theorem dayOf_mono {s t : Int} (h : s ≤ t) : dayOf s ≤ dayOf t := by
  unfold dayOf msPerDay; omega

theorem mul_day_le_iff (x y : Int) : x * msPerDay ≤ y * msPerDay ↔ x ≤ y := by
  unfold msPerDay; omega

theorem nextDay_mul (x : Int) : nextDay (x * msPerDay) = (x + 1) * msPerDay := by
  unfold nextDay msPerDay; omega

theorem loopFuel_mul (x y : Int) : loopFuel (x * msPerDay) (y * msPerDay) = (y - x + 1).toNat := by
  unfold loopFuel msPerDay
  congr 1
  omega

theorem dayOf_max_startOfDay (t s : Int) :
    dayOf (max t (startOfDay s)) = max (dayOf t) (dayOf s) := by
  unfold startOfDay dayOf msPerDay
  omega

theorem dayOf_min_endOfDay (t e : Int) :
    dayOf (min t (endOfDay (startOfDay e))) = min (dayOf t) (dayOf e) := by
  unfold endOfDay startOfDay dayOf msPerDay
  omega

theorem mem_dayRange (n : Nat) : ∀ (a d : Int), d ∈ dayRange a n ↔ a ≤ d ∧ d < a + n := by
  induction n with
  | zero => intro a d; simp only [dayRange, List.not_mem_nil, false_iff]; push_cast; omega
  | succ n ih =>
    intro a d
    simp only [dayRange, List.mem_cons, ih]
    push_cast
    omega

theorem mem_daySequence (s e d : Int) : d ∈ daySequence s e ↔ dayOf s ≤ d ∧ d ≤ dayOf e := by
  unfold daySequence startOfDay
  rw [loopFuel_mul, mem_dayRange]
  omega

/-! ## Dictionaries given by a key list and a value function -/

theorem mapHas_tabulate (keys : List Int) (f : Int → Int) (k : Int) :
    mapHas (tabulate keys f) k = true ↔ k ∈ keys := by
  unfold mapHas tabulate
  simp only [List.any_eq_true, beq_iff_eq]
  constructor
  · rintro ⟨p, hp, rfl⟩
    obtain ⟨d, hd, rfl⟩ := List.mem_map.1 hp
    exact hd
  · intro h; exact ⟨(k, f k), List.mem_map.2 ⟨k, h, rfl⟩, rfl⟩

theorem mapGet_tabulate (keys : List Int) (f : Int → Int) (k : Int) (hk : k ∈ keys) :
    mapGet (tabulate keys f) k = some (f k) := by
  unfold mapGet tabulate
  induction keys with
  | nil => simp at hk
  | cons a t ih =>
    by_cases h : a = k
    · subst h; simp
    · have hk2 : k ∈ t := by
        rcases List.mem_cons.1 hk with h1 | h1
        · exact absurd h1.symm h
        · exact h1
      simpa [List.find?_cons, h] using ih hk2

theorem mapSet_tabulate_mem (keys : List Int) (f g : Int → Int) (k v : Int) (hk : k ∈ keys)
    (hg : ∀ d ∈ keys, g d = if d = k then v else f d) :
    mapSet (tabulate keys f) k v = tabulate keys g := by
  unfold mapSet
  rw [if_pos ((mapHas_tabulate keys f k).2 hk)]
  unfold tabulate
  rw [List.map_map]
  apply List.map_congr_left
  intro d hd
  rw [hg d hd]
  by_cases h : d = k
  · subst h; simp
  · simp [h]

theorem mapSet_tabulate_new (keys : List Int) (f g : Int → Int) (k v : Int) (hk : k ∉ keys)
    (hgk : g k = v) (hg : ∀ d ∈ keys, g d = f d) :
    mapSet (tabulate keys f) k v = tabulate (keys ++ [k]) g := by
  unfold mapSet
  have hno : ¬ mapHas (tabulate keys f) k = true := fun h => hk ((mapHas_tabulate keys f k).1 h)
  rw [if_neg hno]
  unfold tabulate
  rw [List.map_append, List.map_cons, List.map_nil, hgk]
  congr 1
  apply List.map_congr_left
  intro d hd
  rw [hg d hd]

theorem tabulate_congr (keys : List Int) (f g : Int → Int) (h : ∀ d ∈ keys, f d = g d) :
    tabulate keys f = tabulate keys g := by
  unfold tabulate
  apply List.map_congr_left
  intro d hd
  rw [h d hd]

theorem mapKeys_tabulate (keys : List Int) (f : Int → Int) : mapKeys (tabulate keys f) = keys := by
  unfold mapKeys tabulate
  rw [List.map_map]
  exact List.map_id keys

/-! ## Closed forms of the loops -/

/-- The first loop run from day `x` with `n` iterations left appends the days
`x, ..., x + n - 1`, each with the count 0. -/
theorem initDayMap_closed (n : Nat) :
    ∀ (x y : Int) (pre : List Int), (n : Int) = y - x + 1 → (∀ d ∈ pre, d < x) →
      initDayMap n (x * msPerDay) (y * msPerDay) (tabulate pre (fun _ => 0))
        = tabulate (pre ++ dayRange x n) (fun _ => 0) := by
  induction n with
  | zero => intro x y pre _ _; simp [initDayMap, dayRange]
  | succ n ih =>
    intro x y pre hn hpre
    have hxy : x * msPerDay ≤ y * msPerDay := (mul_day_le_iff x y).2 (by push_cast at hn; omega)
    have hx : x ∉ pre := fun h => lt_irrefl x (hpre x h)
    simp only [initDayMap, if_pos hxy, dayOf_mul, nextDay_mul, dayRange]
    rw [mapSet_tabulate_new pre (fun _ => 0) (fun _ => 0) x 0 hx rfl (fun _ _ => rfl)]
    rw [ih (x + 1) y (pre ++ [x]) (by push_cast at hn; omega)]
    · rw [List.append_assoc]; rfl
    · intro d hd
      rcases List.mem_append.1 hd with h | h
      · have := hpre d h; omega
      · simp at h; omega

/-- The first loop stops by its guard, not by its fuel: with any fuel of at
least `loopFuel` iterations it yields the same dictionary. -/
theorem initDayMap_enough_fuel (n : Nat) :
    ∀ (x y : Int) (pre : List Int), x ≤ y + 1 → (y - x + 1).toNat ≤ n → (∀ d ∈ pre, d < x) →
      initDayMap n (x * msPerDay) (y * msPerDay) (tabulate pre (fun _ => 0))
        = initDayMap (loopFuel (x * msPerDay) (y * msPerDay)) (x * msPerDay) (y * msPerDay)
            (tabulate pre (fun _ => 0)) := by
  induction n with
  | zero =>
    intro x y pre _ hn _
    rw [loopFuel_mul, Nat.le_zero.1 hn]
  | succ n ih =>
    intro x y pre hxy hn hpre
    rw [loopFuel_mul]
    by_cases hle : x ≤ y
    · have hx : x ∉ pre := fun h => lt_irrefl x (hpre x h)
      have hsucc : (y - x + 1).toNat = (y - (x + 1) + 1).toNat + 1 := by omega
      have hpre2 : ∀ d ∈ pre ++ [x], d < x + 1 := by
        intro d hd
        rcases List.mem_append.1 hd with h | h
        · have := hpre d h; omega
        · simp at h; omega
      rw [hsucc]
      simp only [initDayMap, if_pos ((mul_day_le_iff x y).2 hle), dayOf_mul, nextDay_mul]
      rw [mapSet_tabulate_new pre (fun _ => 0) (fun _ => 0) x 0 hx rfl (fun _ _ => rfl),
        ih (x + 1) y (pre ++ [x]) (by omega) (by omega) hpre2, loopFuel_mul]
    · have h0 : (y - x + 1).toNat = 0 := by omega
      rw [h0]
      simp only [initDayMap, if_neg (fun h => hle ((mul_day_le_iff x y).1 h))]

/-- The inner loop adds `rooms` to exactly the listed days between `x` and `y`
that also lie between `a` and `b`. -/
theorem addBookingDays_closed (keys : List Int) (y a b rooms : Int) (n : Nat) :
    ∀ (x : Int) (f : Int → Int), (y - x + 1).toNat ≤ n →
      addBookingDays n (x * msPerDay) (y * msPerDay) (a * msPerDay) (b * msPerDay) rooms
          (tabulate keys f)
        = tabulate keys
            (fun d => f d + (if x ≤ d ∧ d ≤ y ∧ a ≤ d ∧ d ≤ b then rooms else 0)) := by
  induction n with
  | zero =>
    intro x f hn
    simp only [addBookingDays]
    apply tabulate_congr
    intro d _
    have : ¬ (x ≤ d ∧ d ≤ y ∧ a ≤ d ∧ d ≤ b) := by omega
    simp [this]
  | succ n ih =>
    intro x f hn
    simp only [addBookingDays, ge_iff_le, mul_day_le_iff, dayOf_mul, nextDay_mul]
    by_cases hxy : x ≤ y
    · rw [if_pos hxy]
      by_cases hin : (a ≤ x ∧ x ≤ b) ∧ x ∈ keys
      · rw [if_pos hin.1, if_pos ((mapHas_tabulate keys f x).2 hin.2),
          mapGet_tabulate keys f x hin.2, Option.getD_some,
          mapSet_tabulate_mem keys f (fun d => if d = x then f x + rooms else f d) x
            (f x + rooms) hin.2 (fun _ _ => rfl),
          ih (x + 1) _ (by omega)]
        apply tabulate_congr
        intro d _
        by_cases hd : d = x
        · subst hd
          have h1 : ¬ (d + 1 ≤ d ∧ d ≤ y ∧ a ≤ d ∧ d ≤ b) := by omega
          have h2 : d ≤ d ∧ d ≤ y ∧ a ≤ d ∧ d ≤ b := by omega
          rw [if_neg h1, if_pos h2, if_pos rfl]; omega
        · have h3 : (x + 1 ≤ d ∧ d ≤ y ∧ a ≤ d ∧ d ≤ b) ↔ (x ≤ d ∧ d ≤ y ∧ a ≤ d ∧ d ≤ b) := by
            omega
          simp [hd, h3]
      · have hskip :
            (if a ≤ x ∧ x ≤ b then
                (if mapHas (tabulate keys f) x = true then
                  mapSet (tabulate keys f) x ((mapGet (tabulate keys f) x).getD 0 + rooms)
                 else tabulate keys f)
              else tabulate keys f) = tabulate keys f := by
          by_cases hab : a ≤ x ∧ x ≤ b
          · have hx : ¬ mapHas (tabulate keys f) x = true :=
              fun h => hin ⟨hab, (mapHas_tabulate keys f x).1 h⟩
            rw [if_pos hab, if_neg hx]
          · rw [if_neg hab]
        rw [hskip, ih (x + 1) f (by omega)]
        apply tabulate_congr
        intro d hd
        by_cases hdx : d = x
        · subst hdx
          have h1 : ¬ (d + 1 ≤ d ∧ d ≤ y ∧ a ≤ d ∧ d ≤ b) := by omega
          have h2 : ¬ (d ≤ d ∧ d ≤ y ∧ a ≤ d ∧ d ≤ b) := fun h => hin ⟨⟨h.2.2.1, h.2.2.2⟩, hd⟩
          rw [if_neg h1, if_neg h2]
        · have h3 : (x + 1 ≤ d ∧ d ≤ y ∧ a ≤ d ∧ d ≤ b) ↔ (x ≤ d ∧ d ≤ y ∧ a ≤ d ∧ d ≤ b) := by
            omega
          simp [h3]
    · rw [if_neg hxy]
      apply tabulate_congr
      intro d _
      have : ¬ (x ≤ d ∧ d ≤ y ∧ a ≤ d ∧ d ≤ b) := by omega
      simp [this]

theorem bookedOn_nil (s e d : Int) : bookedOn s e [] d = 0 := by
  simp [bookedOn]

theorem bookedOn_cons (s e : Int) (b : Booking) (t : List Booking) (d : Int) :
    bookedOn s e (b :: t) d = roomsOn s e b d + bookedOn s e t d := by
  unfold bookedOn roomsOn
  by_cases h : overlaps s e b ∧ spansDay b d
  · simp [List.filter_cons, h]
  · simp [List.filter_cons, h]

theorem applyBooking_closed (s e : Int) (b : Booking) (keys : List Int) (f : Int → Int)
    (hkeys : ∀ d ∈ keys, dayOf s ≤ d ∧ d ≤ dayOf e) :
    applyBooking s e (tabulate keys f) b = tabulate keys (fun d => f d + roomsOn s e b d) := by
  unfold applyBooking
  by_cases hskip : b.endDate ≤ s ∨ b.startDate ≥ e
  · rw [if_pos hskip]
    apply tabulate_congr
    intro d _
    have : ¬ (overlaps s e b ∧ spansDay b d) := by
      unfold overlaps; omega
    simp [roomsOn, this]
  · rw [if_neg hskip]
    have e1 : startOfDay (max b.startDate (startOfDay s))
        = max (dayOf b.startDate) (dayOf s) * msPerDay := by
      show dayOf _ * msPerDay = _
      rw [dayOf_max_startOfDay]
    have e2 : startOfDay (min b.endDate (endOfDay (startOfDay e)))
        = min (dayOf b.endDate) (dayOf e) * msPerDay := by
      show dayOf _ * msPerDay = _
      rw [dayOf_min_endOfDay]
    have e3 : startOfDay s = dayOf s * msPerDay := rfl
    have e4 : startOfDay e = dayOf e * msPerDay := rfl
    rw [e1, e2, e3, e4, addBookingDays_closed keys _ _ _ _ _ _ f (le_of_eq (loopFuel_mul _ _).symm)]
    apply tabulate_congr
    intro d hd
    have hr := hkeys d hd
    have hiff : (max (dayOf b.startDate) (dayOf s) ≤ d ∧ d ≤ min (dayOf b.endDate) (dayOf e)
        ∧ dayOf s ≤ d ∧ d ≤ dayOf e) ↔ (overlaps s e b ∧ spansDay b d) := by
      unfold overlaps spansDay; omega
    simp only [roomsOn, hiff]

theorem foldl_applyBooking_closed (s e : Int) (keys : List Int)
    (hkeys : ∀ d ∈ keys, dayOf s ≤ d ∧ d ≤ dayOf e) (bookings : List Booking) :
    ∀ f : Int → Int, bookings.foldl (applyBooking s e) (tabulate keys f)
      = tabulate keys (fun d => f d + bookedOn s e bookings d) := by
  induction bookings with
  | nil =>
    intro f
    apply tabulate_congr
    intro d _
    simp [bookedOn_nil]
  | cons b t ih =>
    intro f
    rw [List.foldl_cons, applyBooking_closed s e b keys f hkeys, ih]
    apply tabulate_congr
    intro d _
    rw [bookedOn_cons]; omega

theorem initDayMap_daySequence (s e : Int) :
    initDayMap (loopFuel (startOfDay s) (startOfDay e)) (startOfDay s) (startOfDay e) []
      = tabulate (daySequence s e) (fun _ => 0) := by
  unfold daySequence
  have e3 : startOfDay s = dayOf s * msPerDay := rfl
  have e4 : startOfDay e = dayOf e * msPerDay := rfl
  rw [e3, e4, loopFuel_mul]
  by_cases h : dayOf s ≤ dayOf e
  · have hn : (((dayOf e - dayOf s + 1).toNat : Nat) : Int) = dayOf e - dayOf s + 1 :=
      Int.toNat_of_nonneg (by omega)
    have := initDayMap_closed _ (dayOf s) (dayOf e) [] hn (by simp)
    simpa [tabulate] using this
  · have h0 : (dayOf e - dayOf s + 1).toNat = 0 := by omega
    rw [h0]
    simp [initDayMap, dayRange, tabulate]

/-- Closed form of `dateBookingMap`: one entry per day of the day sequence,
holding the rooms of the overlapping bookings whose day span contains it. -/
theorem dateBookingMap_closed (s e : Int) (bookings : List Booking) :
    dateBookingMap s e bookings = tabulate (daySequence s e) (bookedOn s e bookings) := by
  unfold dateBookingMap
  rw [initDayMap_daySequence,
    foldl_applyBooking_closed s e _ (fun d hd => (mem_daySequence s e d).1 hd)]
  apply tabulate_congr
  intro d _
  omega

theorem dayRange_pairwise (n : Nat) : ∀ a : Int, (dayRange a n).Pairwise (fun x y => x < y) := by
  induction n with
  | zero => intro a; simp [dayRange]
  | succ n ih =>
    intro a
    simp only [dayRange, List.pairwise_cons]
    refine ⟨?_, ih (a + 1)⟩
    intro d hd
    have := (mem_dayRange n (a + 1) d).1 hd
    omega

theorem daySequence_pairwise (s e : Int) : (daySequence s e).Pairwise (fun x y => x < y) :=
  dayRange_pairwise _ _

theorem daySequence_nodup (s e : Int) : (daySequence s e).Nodup :=
  (daySequence_pairwise s e).imp (fun h => ne_of_lt h)

theorem isoDaily_foldl (g : Int → Int) (suf : List Int) :
    ∀ (pre : List Int) (mn : Int), (pre ++ suf).Nodup →
      (tabulate suf g).foldl
          (fun acc entry =>
            (mapSet acc.1 entry.1 (totalRooms - entry.2), min acc.2 (totalRooms - entry.2)))
          (tabulate pre (fun d => totalRooms - g d), mn)
        = (tabulate (pre ++ suf) (fun d => totalRooms - g d), minOver g suf mn) := by
  induction suf with
  | nil => intro pre mn _; simp [tabulate, minOver]
  | cons k t ih =>
    intro pre mn hnd
    have hk : k ∉ pre := by
      intro hk
      have := List.nodup_append.1 hnd
      exact this.2.2 hk (List.mem_cons_self k t)
    have hnd2 : ((pre ++ [k]) ++ t).Nodup := by simpa using hnd
    have hstep := ih (pre ++ [k]) (min mn (totalRooms - g k)) hnd2
    simp only [tabulate, List.map_cons, List.foldl_cons] at hstep ⊢
    have hset := mapSet_tabulate_new pre (fun d => totalRooms - g d) (fun d => totalRooms - g d) k
      (totalRooms - g k) hk rfl (fun _ _ => rfl)
    simp only [tabulate] at hset
    rw [hset, hstep]
    simp [minOver]

theorem isoDailyAvailability_closed (keys : List Int) (g : Int → Int) (hnd : keys.Nodup) :
    isoDailyAvailability (tabulate keys g)
      = (tabulate keys (fun d => totalRooms - g d), minOver g keys totalRooms) := by
  unfold isoDailyAvailability
  have := isoDaily_foldl g keys [] totalRooms (by simpa using hnd)
  simpa [tabulate] using this

theorem display_foldl (keys : List Int) (h : Int → Int) (suf : List Int) :
    ∀ pre : List Int, (pre ++ suf).Nodup → (∀ k ∈ suf, k ∈ keys) →
      suf.foldl (fun disp k => mapSet disp k ((mapGet (tabulate keys h) k).getD 0))
          (tabulate pre h)
        = tabulate (pre ++ suf) h := by
  induction suf with
  | nil => intro pre _ _; simp
  | cons k t ih =>
    intro pre hnd hmem
    have hk : k ∉ pre := by
      intro hk
      have := List.nodup_append.1 hnd
      exact this.2.2 hk (List.mem_cons_self k t)
    have hnd2 : ((pre ++ [k]) ++ t).Nodup := by simpa using hnd
    rw [List.foldl_cons, mapGet_tabulate keys h k (hmem k (List.mem_cons_self k t)),
      Option.getD_some, mapSet_tabulate_new pre h h k (h k) hk rfl (fun _ _ => rfl),
      ih (pre ++ [k]) hnd2 (fun x hx => hmem x (List.mem_cons_of_mem k hx))]
    simp

theorem dailyAvailabilityForDisplay_closed (keys : List Int) (h : Int → Int)
    (hs : keys.Pairwise (fun x y => x < y)) :
    dailyAvailabilityForDisplay (tabulate keys h) = tabulate keys h := by
  unfold dailyAvailabilityForDisplay
  rw [mapKeys_tabulate]
  have hsorted : List.Sorted (fun a b : Int => a ≤ b) keys := hs.imp (fun hlt => le_of_lt hlt)
  rw [List.Sorted.insertionSort_eq hsorted]
  have hnd : keys.Nodup := hs.imp (fun hlt => ne_of_lt hlt)
  have := display_foldl keys h keys [] (by simpa using hnd) (fun k hk => hk)
  simpa [tabulate] using this

/-- Closed form of `calculateAvailabilityInternal`. -/
theorem calculateAvailabilityInternal_closed (s e n : Int) (bookings : List Booking) :
    calculateAvailabilityInternal s e n bookings
      = AvailabilityResult.mk
          (decide (minOver (bookedOn s e bookings) (daySequence s e) totalRooms ≥ n))
          (minOver (bookedOn s e bookings) (daySequence s e) totalRooms)
          n
          (tabulate (daySequence s e) (fun d => totalRooms - bookedOn s e bookings d))
          s e := by
  unfold calculateAvailabilityInternal
  rw [dateBookingMap_closed, isoDailyAvailability_closed _ _ (daySequence_nodup s e),
    dailyAvailabilityForDisplay_closed _ _ (daySequence_pairwise s e)]

/-! ## The running minimum -/

theorem minOver_cons (g : Int → Int) (k : Int) (t : List Int) (st : Int) :
    minOver g (k :: t) st = minOver g t (min st (totalRooms - g k)) := rfl

theorem minOver_le_start (g : Int → Int) (keys : List Int) :
    ∀ st : Int, minOver g keys st ≤ st := by
  induction keys with
  | nil => intro st; exact le_refl _
  | cons k t ih =>
    intro st
    rw [minOver_cons]
    exact le_trans (ih _) (min_le_left _ _)

theorem minOver_le_of_mem (g : Int → Int) (keys : List Int) (d : Int) :
    ∀ st : Int, d ∈ keys → minOver g keys st ≤ totalRooms - g d := by
  induction keys with
  | nil => intro st h; simp at h
  | cons k t ih =>
    intro st h
    rw [minOver_cons]
    rcases List.mem_cons.1 h with h1 | h1
    · subst h1
      exact le_trans (minOver_le_start g t _) (min_le_right _ _)
    · exact ih _ h1

theorem le_minOver (g : Int → Int) (keys : List Int) (c : Int)
    (hkeys : ∀ d ∈ keys, c ≤ totalRooms - g d) :
    ∀ st : Int, c ≤ st → c ≤ minOver g keys st := by
  induction keys with
  | nil => intro st h; exact h
  | cons k t ih =>
    intro st h
    rw [minOver_cons]
    exact ih (fun d hd => hkeys d (List.mem_cons_of_mem k hd)) _
      (le_min h (hkeys k (List.mem_cons_self k t)))

theorem minOver_eq_or (g : Int → Int) (keys : List Int) :
    ∀ st : Int, minOver g keys st = st ∨ ∃ d ∈ keys, minOver g keys st = totalRooms - g d := by
  induction keys with
  | nil => intro st; exact Or.inl rfl
  | cons k t ih =>
    intro st
    rw [minOver_cons]
    rcases ih (min st (totalRooms - g k)) with h | ⟨d, hd, h⟩
    · rcases min_choice st (totalRooms - g k) with hm | hm
      · exact Or.inl (by rw [h, hm])
      · exact Or.inr ⟨k, List.mem_cons_self k t, by rw [h, hm]⟩
    · exact Or.inr ⟨d, List.mem_cons_of_mem k hd, h⟩

theorem bookedOn_eq (s e : Int) (bookings : List Booking) (d : Int) :
    bookedOn s e bookings d
      = ((bookings.filter (fun b => decide ((b.endDate > s ∧ b.startDate < e)
            ∧ (dayOf b.startDate ≤ d ∧ d ≤ dayOf b.endDate)))).map
          (fun b => b.numberOfRooms)).sum := by
  unfold bookedOn
  congr 2

theorem bookedOn_nonneg (s e : Int) (bookings : List Booking) (d : Int)
    (h : ∀ b ∈ bookings, 0 ≤ b.numberOfRooms) : 0 ≤ bookedOn s e bookings d := by
  induction bookings with
  | nil => simp [bookedOn_nil]
  | cons b t ih =>
    rw [bookedOn_cons]
    have h1 : 0 ≤ roomsOn s e b d := by
      unfold roomsOn
      split
      · exact h b (List.mem_cons_self b t)
      · exact le_refl _
    have h2 := ih (fun x hx => h x (List.mem_cons_of_mem b hx))
    omega

/-! ## Claims about the availability calculation -/

/-- C1: for every day `d` from the day of `s` through the day of `e`, the
per-day availability that `calculateAvailabilityInternal` reports for `d` is
133 minus the sum of `numberOfRooms` over exactly the bookings with
`endDate > s` and `startDate < e` whose day span contains `d` (this holds
for every interval, in particular when `s < e`). -/
theorem calculateAvailabilityInternal_day_value (s e n : Int) (bookings : List Booking)
    (d : Int) (hlo : dayOf s ≤ d) (hhi : d ≤ dayOf e) :
    mapGet (calculateAvailabilityInternal s e n bookings).dailyAvailability d
      = some (133 - ((bookings.filter (fun b => decide ((b.endDate > s ∧ b.startDate < e)
            ∧ (dayOf b.startDate ≤ d ∧ d ≤ dayOf b.endDate)))).map
          (fun b => b.numberOfRooms)).sum) := by
  rw [calculateAvailabilityInternal_closed]
  simp only
  rw [mapGet_tabulate _ _ d ((mem_daySequence s e d).2 ⟨hlo, hhi⟩), bookedOn_eq]
  rfl

/-- Witness of C1: one booking of 100 rooms on 1-3 January, queried for
2-4 January, on 2 January. -/
theorem calculateAvailabilityInternal_day_value_witness :
    mapGet (calculateAvailabilityInternal (jan2024 2) (jan2024 4) 40
        [stored 1 100 BookingStatus.confirmed (jan2024 1) (jan2024 3)]).dailyAvailability 19724
      = some (133 - (([stored 1 100 BookingStatus.confirmed (jan2024 1) (jan2024 3)].filter
          (fun b => decide ((b.endDate > jan2024 2 ∧ b.startDate < jan2024 4)
            ∧ (dayOf b.startDate ≤ 19724 ∧ 19724 ≤ dayOf b.endDate)))).map
          (fun b => b.numberOfRooms)).sum) :=
  calculateAvailabilityInternal_day_value (jan2024 2) (jan2024 4) 40
    [stored 1 100 BookingStatus.confirmed (jan2024 1) (jan2024 3)] 19724
    (by decide) (by decide)

/-- C2: when the day sequence is non-empty (the day of `s` is not after the
day of `e`) and no booking has a negative room count, `availableRooms` is the
minimum of the reported per-day values (it is one of them and is at most
each of them), `available` is `availableRooms ≥ requestedRooms`, and
`requestedRooms` is the `numberOfRooms` argument. -/
theorem calculateAvailabilityInternal_min (s e n : Int) (bookings : List Booking)
    (hdays : dayOf s ≤ dayOf e) (hrooms : ∀ b ∈ bookings, 0 ≤ b.numberOfRooms) :
    (calculateAvailabilityInternal s e n bookings).availableRooms
        ∈ (calculateAvailabilityInternal s e n bookings).dailyAvailability.map Prod.snd
      ∧ (∀ v ∈ (calculateAvailabilityInternal s e n bookings).dailyAvailability.map Prod.snd,
          (calculateAvailabilityInternal s e n bookings).availableRooms ≤ v)
      ∧ (calculateAvailabilityInternal s e n bookings).available
          = decide ((calculateAvailabilityInternal s e n bookings).availableRooms
              ≥ (calculateAvailabilityInternal s e n bookings).requestedRooms)
      ∧ (calculateAvailabilityInternal s e n bookings).requestedRooms = n := by
  rw [calculateAvailabilityInternal_closed]
  refine ⟨?_, ?_, rfl, rfl⟩ <;>
    simp only [tabulate, List.map_map, List.mem_map, Function.comp]
  · rcases minOver_eq_or (bookedOn s e bookings) (daySequence s e) totalRooms with h | ⟨d, hd, h⟩
    · have hmem : dayOf s ∈ daySequence s e := (mem_daySequence s e _).2 ⟨le_refl _, hdays⟩
      refine ⟨dayOf s, hmem, ?_⟩
      have h1 := minOver_le_of_mem (bookedOn s e bookings) (daySequence s e) (dayOf s)
        totalRooms hmem
      have h2 := bookedOn_nonneg s e bookings (dayOf s) hrooms
      rw [h] at h1 ⊢
      omega
    · exact ⟨d, hd, h.symm⟩
  · rintro v ⟨d, hd, rfl⟩
    exact minOver_le_of_mem _ _ d _ hd

/-- Witness of C2: one booking of 100 rooms on 1-3 January, queried for
2-4 January. -/
theorem calculateAvailabilityInternal_min_witness :
    (calculateAvailabilityInternal (jan2024 2) (jan2024 4) 40
        [stored 1 100 BookingStatus.confirmed (jan2024 1) (jan2024 3)]).availableRooms
        ∈ (calculateAvailabilityInternal (jan2024 2) (jan2024 4) 40
            [stored 1 100 BookingStatus.confirmed (jan2024 1) (jan2024 3)]).dailyAvailability.map
              Prod.snd :=
  (calculateAvailabilityInternal_min (jan2024 2) (jan2024 4) 40
    [stored 1 100 BookingStatus.confirmed (jan2024 1) (jan2024 3)]
    (by decide) (by decide)).1

theorem bookedOn_eq_zero (s e : Int) (bookings : List Booking) (d : Int)
    (h : ∀ b ∈ bookings, b.endDate ≤ s ∨ b.startDate ≥ e) : bookedOn s e bookings d = 0 := by
  induction bookings with
  | nil => exact bookedOn_nil s e d
  | cons b t ih =>
    rw [bookedOn_cons, ih (fun x hx => h x (List.mem_cons_of_mem b hx))]
    have hb := h b (List.mem_cons_self b t)
    have : ¬ (overlaps s e b ∧ spansDay b d) := by
      unfold overlaps; omega
    simp [roomsOn, this]

theorem minOver_all_eq (g : Int → Int) (v : Int) (keys : List Int)
    (h : ∀ d ∈ keys, totalRooms - g d = v) :
    ∀ st : Int, keys ≠ [] → minOver g keys st = min st v := by
  induction keys with
  | nil => intro st hne; exact absurd rfl hne
  | cons k t ih =>
    intro st _
    rw [minOver_cons, h k (List.mem_cons_self k t)]
    by_cases ht : t = []
    · subst ht; rfl
    · rw [ih (fun d hd => h d (List.mem_cons_of_mem k hd)) _ ht]
      omega

/-- C9: when every existing booking ends at or before `s` or starts at or
after `e`, `calculateAvailabilityInternal` reports 133 for every day of the
day sequence (no other value is reported) and `availableRooms` is 133. -/
theorem calculateAvailabilityInternal_no_overlap (s e n : Int) (bookings : List Booking)
    (hb : ∀ b ∈ bookings, b.endDate ≤ s ∨ b.startDate ≥ e) :
    (∀ d, dayOf s ≤ d → d ≤ dayOf e →
        mapGet (calculateAvailabilityInternal s e n bookings).dailyAvailability d = some 133)
      ∧ (∀ p ∈ (calculateAvailabilityInternal s e n bookings).dailyAvailability, p.2 = 133)
      ∧ (calculateAvailabilityInternal s e n bookings).availableRooms = 133 := by
  rw [calculateAvailabilityInternal_closed]
  refine ⟨?_, ?_, ?_⟩
  · intro d hlo hhi
    simp only
    rw [mapGet_tabulate _ _ d ((mem_daySequence s e d).2 ⟨hlo, hhi⟩),
      bookedOn_eq_zero s e bookings d hb]
    rfl
  · intro p hp
    simp only [tabulate, List.mem_map] at hp
    obtain ⟨d, _, rfl⟩ := hp
    simp only
    rw [bookedOn_eq_zero s e bookings d hb]
    rfl
  · simp only
    apply le_antisymm
    · exact minOver_le_start _ _ _
    · apply le_minOver _ _ _ _ _ (le_refl _)
      intro d _
      rw [bookedOn_eq_zero s e bookings d hb]
      simp [totalRooms]

/-- Witness of C9: a booking that ends exactly at the start of the queried
interval and one that starts exactly at its end. -/
theorem calculateAvailabilityInternal_no_overlap_witness :
    (calculateAvailabilityInternal (jan2024 2) (jan2024 4) 40
        [stored 1 100 BookingStatus.confirmed (jan2024 1) (jan2024 2),
         stored 2 50 BookingStatus.pencil (jan2024 4) (jan2024 5)]).availableRooms = 133 :=
  (calculateAvailabilityInternal_no_overlap (jan2024 2) (jan2024 4) 40
    [stored 1 100 BookingStatus.confirmed (jan2024 1) (jan2024 2),
     stored 2 50 BookingStatus.pencil (jan2024 4) (jan2024 5)]
    (by decide)).2.2

/-- C10, the claim as stated fails for a negative room count: with a single
booking of -1 rooms that contains the interval, every day reports 134 but
`availableRooms` is 133, not 133 - (-1). -/
theorem calculateAvailabilityInternal_containing_negative :
    (stored 1 (-1) BookingStatus.confirmed (jan2024 1) (jan2024 5)).startDate ≤ jan2024 2
      ∧ (stored 1 (-1) BookingStatus.confirmed (jan2024 1) (jan2024 5)).endDate ≥ jan2024 4
      ∧ (calculateAvailabilityInternal (jan2024 2) (jan2024 4) 1
          [stored 1 (-1) BookingStatus.confirmed (jan2024 1) (jan2024 5)]).dailyAvailability
          = [(19724, 134), (19725, 134), (19726, 134)]
      ∧ (calculateAvailabilityInternal (jan2024 2) (jan2024 4) 1
          [stored 1 (-1) BookingStatus.confirmed (jan2024 1) (jan2024 5)]).availableRooms = 133
      ∧ ¬ ((calculateAvailabilityInternal (jan2024 2) (jan2024 4) 1
          [stored 1 (-1) BookingStatus.confirmed (jan2024 1) (jan2024 5)]).availableRooms
            = 133 - (stored 1 (-1) BookingStatus.confirmed (jan2024 1) (jan2024 5)).numberOfRooms) := by
  decide

/-- C10 as amended: for `s < e` and a single booking `B` with
`B.startDate ≤ s` and `B.endDate ≥ e`, every day of the day sequence reports
`133 - B.numberOfRooms`, and `availableRooms` is the smaller of 133 and
`133 - B.numberOfRooms`, which is `133 - B.numberOfRooms` whenever the room
count is not negative. -/
theorem calculateAvailabilityInternal_containing (s e n : Int) (B : Booking)
    (hse : s < e) (hs : B.startDate ≤ s) (he : B.endDate ≥ e) :
    (∀ d, dayOf s ≤ d → d ≤ dayOf e →
        mapGet (calculateAvailabilityInternal s e n [B]).dailyAvailability d
          = some (133 - B.numberOfRooms))
      ∧ (∀ p ∈ (calculateAvailabilityInternal s e n [B]).dailyAvailability,
          p.2 = 133 - B.numberOfRooms)
      ∧ (calculateAvailabilityInternal s e n [B]).availableRooms
          = min 133 (133 - B.numberOfRooms)
      ∧ (0 ≤ B.numberOfRooms →
          (calculateAvailabilityInternal s e n [B]).availableRooms = 133 - B.numberOfRooms) := by
  have hday : ∀ d ∈ daySequence s e, bookedOn s e [B] d = B.numberOfRooms := by
    intro d hd
    have hr := (mem_daySequence s e d).1 hd
    have h1 := dayOf_mono hs
    have h2 := dayOf_mono (show e ≤ B.endDate from he)
    have : overlaps s e B ∧ spansDay B d := by
      unfold overlaps spansDay; omega
    rw [bookedOn_cons, bookedOn_nil]
    simp [roomsOn, this]
  have hne : daySequence s e ≠ [] := by
    have hmem : dayOf s ∈ daySequence s e :=
      (mem_daySequence s e _).2 ⟨le_refl _, dayOf_mono (le_of_lt hse)⟩
    exact List.ne_nil_of_mem hmem
  have hmin : minOver (bookedOn s e [B]) (daySequence s e) totalRooms
      = min 133 (133 - B.numberOfRooms) := by
    have := minOver_all_eq (bookedOn s e [B]) (133 - B.numberOfRooms) (daySequence s e)
      (fun d hd => by rw [hday d hd]; rfl) totalRooms hne
    rw [this]; rfl
  rw [calculateAvailabilityInternal_closed]
  refine ⟨?_, ?_, ?_, ?_⟩
  · intro d hlo hhi
    simp only
    rw [mapGet_tabulate _ _ d ((mem_daySequence s e d).2 ⟨hlo, hhi⟩),
      hday d ((mem_daySequence s e d).2 ⟨hlo, hhi⟩)]
    rfl
  · intro p hp
    simp only [tabulate, List.mem_map] at hp
    obtain ⟨d, hd, rfl⟩ := hp
    simp only
    rw [hday d hd]
    rfl
  · exact hmin
  · intro hk
    simp only
    rw [hmin]
    omega

/-- Witness of C10: a booking of 100 rooms on 1-5 January contains the
interval 2-4 January. -/
theorem calculateAvailabilityInternal_containing_witness :
    (calculateAvailabilityInternal (jan2024 2) (jan2024 4) 40
        [stored 1 100 BookingStatus.confirmed (jan2024 1) (jan2024 5)]).availableRooms
      = min 133 (133 - (stored 1 100 BookingStatus.confirmed (jan2024 1) (jan2024 5)).numberOfRooms) :=
  (calculateAvailabilityInternal_containing (jan2024 2) (jan2024 4) 40
    (stored 1 100 BookingStatus.confirmed (jan2024 1) (jan2024 5))
    (by decide) (by decide) (by decide)).2.2.1

/-! ## The working set of `saveBooking` -/

theorem contains_iff_mem (ids : List Int) (x : Int) : ids.contains x = true ↔ x ∈ ids := by
  simp

theorem mem_setAdd (ids : List Int) (x y : Int) : y ∈ setAdd ids x ↔ y ∈ ids ∨ y = x := by
  unfold setAdd
  by_cases h : ids.contains x = true
  · rw [if_pos h]
    constructor
    · intro hy; exact Or.inl hy
    · rintro (hy | hy)
      · exact hy
      · subst hy; exact (contains_iff_mem ids y).1 h
  · rw [if_neg h]
    simp

theorem mem_foldl_ids (bookingData : BookingData) (bookings : List Booking) (y : Int) :
    ∀ acc : List Int,
      y ∈ bookings.foldl
          (fun ids b =>
            if b.bookingStatus = BookingStatus.pencil then
              (if bookingData.startDate < b.endDate ∧ bookingData.endDate > b.startDate then
                setAdd ids b.id
               else ids)
            else ids)
          acc
        ↔ y ∈ acc ∨ ∃ b ∈ bookings, b.bookingStatus = BookingStatus.pencil
            ∧ (bookingData.startDate < b.endDate ∧ bookingData.endDate > b.startDate)
            ∧ b.id = y := by
  induction bookings with
  | nil => intro acc; simp
  | cons b t ih =>
    intro acc
    rw [List.foldl_cons, ih]
    by_cases hp : b.bookingStatus = BookingStatus.pencil
    · by_cases ho : bookingData.startDate < b.endDate ∧ bookingData.endDate > b.startDate
      · rw [if_pos hp, if_pos ho, mem_setAdd]
        constructor
        · rintro ((h | h) | ⟨x, hx, h⟩)
          · exact Or.inl h
          · exact Or.inr ⟨b, List.mem_cons_self b t, hp, ho, h.symm⟩
          · exact Or.inr ⟨x, List.mem_cons_of_mem b hx, h⟩
        · rintro (h | ⟨x, hx, h⟩)
          · exact Or.inl (Or.inl h)
          · rcases List.mem_cons.1 hx with hxb | hxt
            · subst hxb; exact Or.inl (Or.inr h.2.2.symm)
            · exact Or.inr ⟨x, hxt, h⟩
      · rw [if_pos hp, if_neg ho]
        constructor
        · rintro (h | ⟨x, hx, h⟩)
          · exact Or.inl h
          · exact Or.inr ⟨x, List.mem_cons_of_mem b hx, h⟩
        · rintro (h | ⟨x, hx, h⟩)
          · exact Or.inl h
          · rcases List.mem_cons.1 hx with hxb | hxt
            · subst hxb; exact absurd h.2.1 ho
            · exact Or.inr ⟨x, hxt, h⟩
    · rw [if_neg hp]
      constructor
      · rintro (h | ⟨x, hx, h⟩)
        · exact Or.inl h
        · exact Or.inr ⟨x, List.mem_cons_of_mem b hx, h⟩
      · rintro (h | ⟨x, hx, h⟩)
        · exact Or.inl h
        · rcases List.mem_cons.1 hx with hxb | hxt
          · subst hxb; exact absurd h.1 hp
          · exact Or.inr ⟨x, hxt, h⟩

/-- The collected ids are exactly the ids of the overlapping pencil bookings. -/
theorem mem_idsOfPencilToOverride (bookingData : BookingData) (bookings : List Booking)
    (y : Int) :
    y ∈ idsOfPencilToOverride bookingData bookings
      ↔ ∃ b ∈ bookings, b.bookingStatus = BookingStatus.pencil
          ∧ (bookingData.startDate < b.endDate ∧ bookingData.endDate > b.startDate)
          ∧ b.id = y := by
  unfold idsOfPencilToOverride
  rw [mem_foldl_ids]
  simp

/-- Both branches of line 125 give the list filtered by the collected ids. -/
theorem bookingsForCheck_fst (bookingData : BookingData) (bookings : List Booking) :
    (bookingsForCheck bookingData bookings).1
      = if bookingData.bookingStatus = BookingStatus.confirmed then
          bookings.filter
            (fun b => !(idsOfPencilToOverride bookingData bookings).contains b.id)
        else bookings := by
  unfold bookingsForCheck
  by_cases hc : bookingData.bookingStatus = BookingStatus.confirmed
  · rw [if_pos hc, if_pos hc]
    by_cases hl : (idsOfPencilToOverride bookingData bookings).length > 0
    · rw [if_pos hl]
    · rw [if_neg hl]
      have hnil : idsOfPencilToOverride bookingData bookings = [] :=
        List.length_eq_zero.1 (by omega)
      rw [hnil]
      simp
  · rw [if_neg hc, if_neg hc]

theorem bookingsForCheck_sublist (bookingData : BookingData) (bookings : List Booking) :
    ((bookingsForCheck bookingData bookings).1).Sublist bookings := by
  rw [bookingsForCheck_fst]
  split
  · exact List.filter_sublist _
  · exact List.Sublist.refl _

/-- With pairwise distinct ids, filtering by the collected ids removes exactly
the overlapping pencil bookings. -/
theorem bookingsForCheck_of_nodup (bookingData : BookingData) (bookings : List Booking)
    (hnd : (bookings.map (fun b => b.id)).Nodup) :
    (bookingsForCheck bookingData bookings).1
      = bookings.filter (fun p =>
          !decide (bookingData.bookingStatus = BookingStatus.confirmed
            ∧ p.bookingStatus = BookingStatus.pencil
            ∧ bookingData.startDate < p.endDate ∧ bookingData.endDate > p.startDate)) := by
  rw [bookingsForCheck_fst]
  by_cases hc : bookingData.bookingStatus = BookingStatus.confirmed
  · rw [if_pos hc]
    apply List.filter_congr
    intro p hp
    have hiff : (idsOfPencilToOverride bookingData bookings).contains p.id = true
        ↔ (bookingData.bookingStatus = BookingStatus.confirmed
            ∧ p.bookingStatus = BookingStatus.pencil
            ∧ bookingData.startDate < p.endDate ∧ bookingData.endDate > p.startDate) := by
      rw [contains_iff_mem, mem_idsOfPencilToOverride]
      constructor
      · rintro ⟨b, hb, hpen, hov, hid⟩
        have hbp : b = p := List.inj_on_of_nodup_map hnd hb hp hid
        subst hbp
        exact ⟨hc, hpen, hov⟩
      · rintro ⟨_, hpen, hov⟩
        exact ⟨p, hp, hpen, hov, rfl⟩
    by_cases hq : (bookingData.bookingStatus = BookingStatus.confirmed
            ∧ p.bookingStatus = BookingStatus.pencil
            ∧ bookingData.startDate < p.endDate ∧ bookingData.endDate > p.startDate)
    · rw [hiff.2 hq]; simp [hq]
    · have : (idsOfPencilToOverride bookingData bookings).contains p.id = false := by
        rw [← Bool.not_eq_true]; exact fun h => hq (hiff.1 h)
      rw [this]; simp [hq]
  · rw [if_neg hc]
    symm
    apply List.filter_eq_self.2
    intro p _
    simp [hc]

/-- The outcomes of `saveBooking` in terms of the availability flag. -/
theorem saveBooking_of_available (now : Int) (store : Snapshot) (bookingData : BookingData)
    (h : (calculateAvailabilityInternal bookingData.startDate bookingData.endDate
      bookingData.numberOfRooms
      (bookingsForCheck bookingData (getBookings store)).1).available = true) :
    saveBooking now store bookingData
      = SaveOutcome.mk
          (if (bookingsForCheck bookingData (getBookings store)).2 then
            Except.error SaveFailure.referenceError
           else Except.ok (Booking.mk bookingData now))
          (Snapshot.bookings
            ((bookingsForCheck bookingData (getBookings store)).1
              ++ [Booking.mk bookingData now])) := by
  unfold saveBooking
  rw [if_pos h]

theorem saveBooking_of_not_available (now : Int) (store : Snapshot) (bookingData : BookingData)
    (h : ¬ (calculateAvailabilityInternal bookingData.startDate bookingData.endDate
      bookingData.numberOfRooms
      (bookingsForCheck bookingData (getBookings store)).1).available = true) :
    saveBooking now store bookingData
      = SaveOutcome.mk
          (Except.error
            (SaveFailure.insufficientCapacity
              (calculateAvailabilityInternal bookingData.startDate bookingData.endDate
                bookingData.numberOfRooms
                (bookingsForCheck bookingData (getBookings store)).1).availableRooms
              ((bookingsForCheck bookingData (getBookings store)).2
                && decide (bookingData.bookingStatus = BookingStatus.confirmed))))
          store := by
  unfold saveBooking
  rw [if_neg h]

/-- The capacity error is thrown exactly when the availability test fails. -/
theorem saveBooking_insufficient_iff (now : Int) (store : Snapshot)
    (bookingData : BookingData) :
    (saveBooking now store bookingData).insufficient = true
      ↔ ¬ (calculateAvailabilityInternal bookingData.startDate bookingData.endDate
          bookingData.numberOfRooms
          (bookingsForCheck bookingData (getBookings store)).1).available = true := by
  by_cases h : (calculateAvailabilityInternal bookingData.startDate bookingData.endDate
      bookingData.numberOfRooms
      (bookingsForCheck bookingData (getBookings store)).1).available = true
  · rw [saveBooking_of_available now store bookingData h]
    cases hflag : (bookingsForCheck bookingData (getBookings store)).2 <;>
      simp [SaveOutcome.insufficient, h]
  · rw [saveBooking_of_not_available now store bookingData h]
    simp [SaveOutcome.insufficient, h]

/-- A call returns normally exactly when the availability test passes and no
pencil booking was overridden. -/
theorem saveBooking_failed_false_iff (now : Int) (store : Snapshot) (bookingData : BookingData) :
    (saveBooking now store bookingData).failed = false
      ↔ (calculateAvailabilityInternal bookingData.startDate bookingData.endDate
          bookingData.numberOfRooms
          (bookingsForCheck bookingData (getBookings store)).1).available = true
        ∧ (bookingsForCheck bookingData (getBookings store)).2 = false := by
  by_cases h : (calculateAvailabilityInternal bookingData.startDate bookingData.endDate
      bookingData.numberOfRooms
      (bookingsForCheck bookingData (getBookings store)).1).available = true
  · rw [saveBooking_of_available now store bookingData h]
    cases hflag : (bookingsForCheck bookingData (getBookings store)).2 <;>
      simp [SaveOutcome.failed, h]
  · rw [saveBooking_of_not_available now store bookingData h]
    simp [SaveOutcome.failed, h]

/-- The flag `pencilBookingsOverridden` is set exactly when the candidate is
confirmed and some stored pencil booking overlaps it. -/
theorem bookingsForCheck_snd (bookingData : BookingData) (bookings : List Booking) :
    (bookingsForCheck bookingData bookings).2 = true
      ↔ bookingData.bookingStatus = BookingStatus.confirmed
          ∧ ∃ b ∈ bookings, b.bookingStatus = BookingStatus.pencil
              ∧ bookingData.startDate < b.endDate ∧ bookingData.endDate > b.startDate := by
  unfold bookingsForCheck
  by_cases hc : bookingData.bookingStatus = BookingStatus.confirmed
  · rw [if_pos hc]
    by_cases hl : (idsOfPencilToOverride bookingData bookings).length > 0
    · rw [if_pos hl]
      simp only [true_iff]
      refine ⟨hc, ?_⟩
      obtain ⟨y, hy⟩ := List.exists_mem_of_length_pos hl
      obtain ⟨b, hb, hp, ho, _⟩ := (mem_idsOfPencilToOverride bookingData bookings y).1 hy
      exact ⟨b, hb, hp, ho⟩
    · rw [if_neg hl]
      simp only [Bool.false_eq_true, false_iff]
      rintro ⟨_, b, hb, hp, ho⟩
      have hmem : b.id ∈ idsOfPencilToOverride bookingData bookings :=
        (mem_idsOfPencilToOverride bookingData bookings b.id).2 ⟨b, hb, hp, ho, rfl⟩
      exact hl (List.length_pos_of_mem hmem)
  · rw [if_neg hc]
    simp [hc]

/-! ## Claims about admission -/

/-- C3: if `saveBooking` fails for insufficient capacity, that is, it throws
the error of line 156, the persisted snapshot after the call is the snapshot
before the call, so `getBookings` lists the same bookings and no pencil
booking identified for eviction has been removed. -/
theorem saveBooking_failure_keeps_store (now : Int) (store : Snapshot)
    (bookingData : BookingData)
    (h : ∃ (availableRooms : Int) (afterOverrideAttempt : Bool),
      (saveBooking now store bookingData).result
        = Except.error (SaveFailure.insufficientCapacity availableRooms afterOverrideAttempt)) :
    (saveBooking now store bookingData).store = store
      ∧ getBookings (saveBooking now store bookingData).store = getBookings store := by
  by_cases ha : (calculateAvailabilityInternal bookingData.startDate bookingData.endDate
      bookingData.numberOfRooms
      (bookingsForCheck bookingData (getBookings store)).1).available = true
  · obtain ⟨n, f, hres⟩ := h
    rw [saveBooking_of_available now store bookingData ha] at hres
    cases hflag : (bookingsForCheck bookingData (getBookings store)).2 <;>
      simp [hflag] at hres
  · rw [saveBooking_of_not_available now store bookingData ha]
    exact ⟨rfl, rfl⟩

/-- Witness of C3: a confirmed request for 133 rooms overlaps a pencil
booking of 10 rooms and a confirmed booking of 100 rooms; the pencil booking
is identified for eviction, 33 rooms remain, the capacity error is thrown and
both stored bookings are still there. -/
theorem saveBooking_failure_keeps_store_witness :
    (saveBooking 7
        (Snapshot.bookings
          [stored 1 10 BookingStatus.pencil (jan2024 1) (jan2024 3),
           stored 2 100 BookingStatus.confirmed (jan2024 1) (jan2024 3)])
        (candidate 133 BookingStatus.confirmed (jan2024 2) (jan2024 4))).store
      = Snapshot.bookings
          [stored 1 10 BookingStatus.pencil (jan2024 1) (jan2024 3),
           stored 2 100 BookingStatus.confirmed (jan2024 1) (jan2024 3)] :=
  (saveBooking_failure_keeps_store 7
    (Snapshot.bookings
      [stored 1 10 BookingStatus.pencil (jan2024 1) (jan2024 3),
       stored 2 100 BookingStatus.confirmed (jan2024 1) (jan2024 3)])
    (candidate 133 BookingStatus.confirmed (jan2024 2) (jan2024 4))
    ⟨33, true, rfl⟩).1

/-- Whenever the availability test passes, with pairwise distinct ids the
list written by line 144 is the prior list without the overlapping pencil
bookings of a confirmed candidate, followed by the new booking; this holds
whether the call then returns or throws at line 146. -/
theorem saveBooking_written_store (now : Int) (store : Snapshot) (bookingData : BookingData)
    (hnd : ((getBookings store).map (fun b => b.id)).Nodup)
    (ha : (calculateAvailabilityInternal bookingData.startDate bookingData.endDate
      bookingData.numberOfRooms
      (bookingsForCheck bookingData (getBookings store)).1).available = true) :
    (saveBooking now store bookingData).store
      = Snapshot.bookings
          ((getBookings store).filter (fun p =>
              !decide (bookingData.bookingStatus = BookingStatus.confirmed
                ∧ p.bookingStatus = BookingStatus.pencil
                ∧ bookingData.startDate < p.endDate ∧ bookingData.endDate > p.startDate))
            ++ [Booking.mk bookingData now]) := by
  rw [saveBooking_of_available now store bookingData ha]
  simp only
  rw [bookingsForCheck_of_nodup bookingData (getBookings store) hnd]

/-- A call that returns normally has evicted nothing: the persisted list is
the whole prior list followed by the new booking. -/
theorem saveBooking_success_keeps_all (now : Int) (store : Snapshot)
    (bookingData : BookingData)
    (hok : (saveBooking now store bookingData).failed = false) :
    (saveBooking now store bookingData).result = Except.ok (Booking.mk bookingData now)
      ∧ (saveBooking now store bookingData).store
          = Snapshot.bookings (getBookings store ++ [Booking.mk bookingData now]) := by
  obtain ⟨ha, hflag⟩ := (saveBooking_failed_false_iff now store bookingData).1 hok
  have hall : (bookingsForCheck bookingData (getBookings store)).1 = getBookings store := by
    unfold bookingsForCheck at hflag ⊢
    split
    · split
      · rename_i h1 h2
        rw [if_pos h1, if_pos h2] at hflag
        exact absurd hflag (by simp)
      · rfl
    · rfl
  rw [saveBooking_of_available now store bookingData ha, hflag, hall]
  exact ⟨rfl, rfl⟩

/-- C4, the code at the failing input: the store holds a pencil booking with
id 1 that overlaps the confirmed request and a pencil booking with id 2 that
does not. The availability test passes and line 144 persists the list
without the overlapping pencil booking and with the new booking, but the
call then throws the `ReferenceError` of line 146 instead of returning the
new booking, so the eviction is never the outcome of a successful call. -/
theorem saveBooking_eviction_throws :
    ((getBookings
        (Snapshot.bookings
          [stored 1 10 BookingStatus.pencil (jan2024 1) (jan2024 3),
           stored 2 100 BookingStatus.pencil (jan2024 5) (jan2024 6)])).map
            (fun b => b.id)).Nodup
      ∧ (saveBooking 7
          (Snapshot.bookings
            [stored 1 10 BookingStatus.pencil (jan2024 1) (jan2024 3),
             stored 2 100 BookingStatus.pencil (jan2024 5) (jan2024 6)])
          (candidate 133 BookingStatus.confirmed (jan2024 2) (jan2024 4))).store
        = Snapshot.bookings
            [stored 2 100 BookingStatus.pencil (jan2024 5) (jan2024 6),
             Booking.mk (candidate 133 BookingStatus.confirmed (jan2024 2) (jan2024 4)) 7]
      ∧ (saveBooking 7
          (Snapshot.bookings
            [stored 1 10 BookingStatus.pencil (jan2024 1) (jan2024 3),
             stored 2 100 BookingStatus.pencil (jan2024 5) (jan2024 6)])
          (candidate 133 BookingStatus.confirmed (jan2024 2) (jan2024 4))).result
        = Except.error SaveFailure.referenceError
      ∧ (saveBooking 7
          (Snapshot.bookings
            [stored 1 10 BookingStatus.pencil (jan2024 1) (jan2024 3),
             stored 2 100 BookingStatus.pencil (jan2024 5) (jan2024 6)])
          (candidate 133 BookingStatus.confirmed (jan2024 2) (jan2024 4))).failed = true := by
  refine ⟨by decide, by decide, rfl, by decide⟩

/-- The example of the capacity contract: with one stored confirmed booking
of 100 rooms on 1-3 January 2024, a request for 40 rooms on 2-4 January
throws the capacity error, which reports 33 available rooms. -/
theorem saveBooking_capacity_example (now : Int) (status : BookingStatus) :
    (saveBooking now
        (Snapshot.bookings [stored 1 100 BookingStatus.confirmed (jan2024 1) (jan2024 3)])
        (candidate 40 status (jan2024 2) (jan2024 4))).result
      = Except.error (SaveFailure.insufficientCapacity 33 false) := by
  cases status <;> rfl

/-- The capacity error is thrown exactly when the `availableRooms` computed
over the working set is less than the requested count, and it reports that
value. -/
theorem saveBooking_capacity_error (now : Int) (store : Snapshot) (bookingData : BookingData) :
    ((saveBooking now store bookingData).insufficient = true
        ↔ (calculateAvailabilityInternal bookingData.startDate bookingData.endDate
            bookingData.numberOfRooms
            (bookingsForCheck bookingData (getBookings store)).1).availableRooms
            < bookingData.numberOfRooms)
      ∧ (∀ (availableRooms : Int) (afterOverrideAttempt : Bool),
          (saveBooking now store bookingData).result
            = Except.error (SaveFailure.insufficientCapacity availableRooms afterOverrideAttempt) →
          availableRooms
            = (calculateAvailabilityInternal bookingData.startDate bookingData.endDate
                bookingData.numberOfRooms
                (bookingsForCheck bookingData (getBookings store)).1).availableRooms) := by
  refine ⟨?_, ?_⟩
  · rw [saveBooking_insufficient_iff]
    simp only [calculateAvailabilityInternal, decide_eq_true_eq, ge_iff_le, not_le]
  · intro n f hres
    by_cases ha : (calculateAvailabilityInternal bookingData.startDate bookingData.endDate
        bookingData.numberOfRooms
        (bookingsForCheck bookingData (getBookings store)).1).available = true
    · rw [saveBooking_of_available now store bookingData ha] at hres
      cases hflag : (bookingsForCheck bookingData (getBookings store)).2 <;>
        simp [hflag] at hres
    · rw [saveBooking_of_not_available now store bookingData ha] at hres
      simp only [Except.error.injEq, SaveFailure.insufficientCapacity.injEq] at hres
      exact hres.1.symm

/-- C5, the code at the failing input: one stored pencil booking of 10 rooms
on 1-3 January and a confirmed request for 40 rooms on 2-4 January. Over the
working set, the stored bookings without the overlapping pencil booking,
`availableRooms` is 133, which is not less than 40; yet the call fails: it
throws the `ReferenceError` of line 146, not the capacity error, and so
reports no number of available rooms. -/
theorem saveBooking_fails_with_capacity :
    (calculateAvailabilityInternal (jan2024 2) (jan2024 4) 40
        ([stored 1 10 BookingStatus.pencil (jan2024 1) (jan2024 3)].filter
          (fun p => !decide (p.bookingStatus = BookingStatus.pencil
            ∧ jan2024 2 < p.endDate ∧ jan2024 4 > p.startDate)))).availableRooms = 133
      ∧ (saveBooking 7
          (Snapshot.bookings [stored 1 10 BookingStatus.pencil (jan2024 1) (jan2024 3)])
          (candidate 40 BookingStatus.confirmed (jan2024 2) (jan2024 4))).failed = true
      ∧ (saveBooking 7
          (Snapshot.bookings [stored 1 10 BookingStatus.pencil (jan2024 1) (jan2024 3)])
          (candidate 40 BookingStatus.confirmed (jan2024 2) (jan2024 4))).insufficient = false
      ∧ (saveBooking 7
          (Snapshot.bookings [stored 1 10 BookingStatus.pencil (jan2024 1) (jan2024 3)])
          (candidate 40 BookingStatus.confirmed (jan2024 2) (jan2024 4))).result
        = Except.error SaveFailure.referenceError := by
  refine ⟨by decide, by decide, by decide, rfl⟩

/-- C7, the claim as stated fails when ids are not distinct: a stored
confirmed booking that shares its id with an overlapping pencil booking is
removed together with it. -/
theorem saveBooking_removes_confirmed_duplicate_id :
    stored 1 100 BookingStatus.confirmed (jan2024 1) (jan2024 3)
        ∈ getBookings
            (Snapshot.bookings
              [stored 1 10 BookingStatus.pencil (jan2024 1) (jan2024 3),
               stored 1 100 BookingStatus.confirmed (jan2024 1) (jan2024 3)])
      ∧ (stored 1 100 BookingStatus.confirmed (jan2024 1) (jan2024 3)).bookingStatus
          = BookingStatus.confirmed
      ∧ (saveBooking 7
            (Snapshot.bookings
              [stored 1 10 BookingStatus.pencil (jan2024 1) (jan2024 3),
               stored 1 100 BookingStatus.confirmed (jan2024 1) (jan2024 3)])
            (candidate 20 BookingStatus.confirmed (jan2024 2) (jan2024 4))).store
          = Snapshot.bookings
              [Booking.mk (candidate 20 BookingStatus.confirmed (jan2024 2) (jan2024 4)) 7]
      ∧ stored 1 100 BookingStatus.confirmed (jan2024 1) (jan2024 3)
        ∉ getBookings
            (saveBooking 7
              (Snapshot.bookings
                [stored 1 10 BookingStatus.pencil (jan2024 1) (jan2024 3),
                 stored 1 100 BookingStatus.confirmed (jan2024 1) (jan2024 3)])
              (candidate 20 BookingStatus.confirmed (jan2024 2) (jan2024 4))).store := by
  decide

/-- C7 as amended: for every store whose ids are pairwise distinct and every
candidate of either status, every stored booking whose status is confirmed
before the call is still stored, unchanged, after the call. -/
theorem saveBooking_keeps_confirmed (now : Int) (store : Snapshot) (bookingData : BookingData)
    (hnd : ((getBookings store).map (fun b => b.id)).Nodup)
    (q : Booking) (hq : q ∈ getBookings store)
    (hconf : q.bookingStatus = BookingStatus.confirmed) :
    q ∈ getBookings (saveBooking now store bookingData).store := by
  by_cases ha : (calculateAvailabilityInternal bookingData.startDate bookingData.endDate
      bookingData.numberOfRooms
      (bookingsForCheck bookingData (getBookings store)).1).available = true
  · rw [saveBooking_of_available now store bookingData ha,
      bookingsForCheck_of_nodup bookingData (getBookings store) hnd]
    simp only [getBookings]
    apply List.mem_append_left
    apply List.mem_filter.2
    refine ⟨hq, ?_⟩
    have : ¬ (bookingData.bookingStatus = BookingStatus.confirmed
        ∧ q.bookingStatus = BookingStatus.pencil
        ∧ bookingData.startDate < q.endDate ∧ bookingData.endDate > q.startDate) := by
      rintro ⟨_, hpen, _⟩
      rw [hconf] at hpen
      exact absurd hpen (by decide)
    simp [this]
  · rw [saveBooking_of_not_available now store bookingData ha]
    exact hq

/-- Witness of C7: a confirmed request for 20 rooms evicts the overlapping
pencil booking with id 1 and keeps the confirmed booking with id 2. -/
theorem saveBooking_keeps_confirmed_witness :
    stored 2 100 BookingStatus.confirmed (jan2024 1) (jan2024 3)
      ∈ getBookings
          (saveBooking 7
            (Snapshot.bookings
              [stored 1 10 BookingStatus.pencil (jan2024 1) (jan2024 3),
               stored 2 100 BookingStatus.confirmed (jan2024 1) (jan2024 3)])
            (candidate 20 BookingStatus.confirmed (jan2024 2) (jan2024 4))).store :=
  saveBooking_keeps_confirmed 7
    (Snapshot.bookings
      [stored 1 10 BookingStatus.pencil (jan2024 1) (jan2024 3),
       stored 2 100 BookingStatus.confirmed (jan2024 1) (jan2024 3)])
    (candidate 20 BookingStatus.confirmed (jan2024 2) (jan2024 4))
    (by decide) _ (by decide) (by decide)

/-- A confirmed booking on the same calendar day that does not overlap the
pencil booking in time leaves it stored: the pencil booking holds 10 rooms
from 08:00 to 10:00 on day 19723, the confirmed booking asks for 133 rooms
from 14:00 to 16:00 on the same day, `saveBooking` returns normally and the
pencil booking is still stored. -/
theorem saveBooking_same_day_keeps_pencil :
    dayOf (atTime 19723 8 0) = 19723 ∧ dayOf (atTime 19723 10 0) = 19723
      ∧ dayOf (atTime 19723 14 0) = 19723 ∧ dayOf (atTime 19723 16 0) = 19723
      ∧ (saveBooking 7
          (Snapshot.bookings
            [stored 1 10 BookingStatus.pencil (atTime 19723 8 0) (atTime 19723 10 0)])
          (candidate 133 BookingStatus.confirmed (atTime 19723 14 0) (atTime 19723 16 0))).failed
          = false
      ∧ stored 1 10 BookingStatus.pencil (atTime 19723 8 0) (atTime 19723 10 0)
        ∈ getBookings
            (saveBooking 7
              (Snapshot.bookings
                [stored 1 10 BookingStatus.pencil (atTime 19723 8 0) (atTime 19723 10 0)])
              (candidate 133 BookingStatus.confirmed (atTime 19723 14 0)
                (atTime 19723 16 0))).store := by
  decide

/-- Every confirmed request for 133 rooms that overlaps the single stored
pencil booking in time persists the new booking alone, so the pencil booking
is absent afterwards, and then throws the `ReferenceError` of line 146. -/
theorem saveBooking_override_single_pencil (now : Int) (pencil : Booking)
    (bookingData : BookingData)
    (hp : pencil.bookingStatus = BookingStatus.pencil)
    (hc : bookingData.bookingStatus = BookingStatus.confirmed)
    (hcr : bookingData.numberOfRooms = 133)
    (hov : bookingData.startDate < pencil.endDate ∧ bookingData.endDate > pencil.startDate) :
    (saveBooking now (Snapshot.bookings [pencil]) bookingData).result
        = Except.error SaveFailure.referenceError
      ∧ (saveBooking now (Snapshot.bookings [pencil]) bookingData).store
          = Snapshot.bookings [Booking.mk bookingData now]
      ∧ pencil ∉ getBookings (saveBooking now (Snapshot.bookings [pencil]) bookingData).store := by
  have hw : (bookingsForCheck bookingData (getBookings (Snapshot.bookings [pencil]))).1 = [] := by
    rw [bookingsForCheck_of_nodup _ _ (by simp [getBookings])]
    simp [getBookings, hp, hc, hov]
  have hflag : (bookingsForCheck bookingData (getBookings (Snapshot.bookings [pencil]))).2
      = true :=
    (bookingsForCheck_snd bookingData _).2
      ⟨hc, pencil, by simp [getBookings], hp, hov.1, hov.2⟩
  have ha : (calculateAvailabilityInternal bookingData.startDate bookingData.endDate
      bookingData.numberOfRooms
      (bookingsForCheck bookingData (getBookings (Snapshot.bookings [pencil]))).1).available
        = true := by
    rw [hw, calculateAvailabilityInternal_closed]
    simp only [decide_eq_true_eq, ge_iff_le]
    rw [hcr]
    apply le_minOver _ _ _ _ _ (by simp [totalRooms])
    intro d _
    rw [bookedOn_nil]
    simp [totalRooms]
  rw [saveBooking_of_available now _ bookingData ha, hw, hflag]
  refine ⟨rfl, rfl, ?_⟩
  simp only [getBookings, List.nil_append, List.mem_singleton]
  intro heq
  have h1 : pencil.bookingStatus = BookingStatus.confirmed := by rw [heq]; exact hc
  rw [hp] at h1
  exact absurd h1 (by decide)

/-- C8, the code at the failing input: the store holds one pencil booking for
10 rooms from 08:00 to 10:00 on day 19723 and the confirmed request asks for
133 rooms from 09:00 to 16:00 on that day. Line 144 persists the new booking
alone, so the pencil booking is absent from the store, but the call does not
succeed: it throws the `ReferenceError` of line 146. -/
theorem saveBooking_evicts_pencil_then_throws :
    (saveBooking 7
        (Snapshot.bookings
          [stored 1 10 BookingStatus.pencil (atTime 19723 8 0) (atTime 19723 10 0)])
        (candidate 133 BookingStatus.confirmed (atTime 19723 9 0) (atTime 19723 16 0))).result
        = Except.error SaveFailure.referenceError
      ∧ (saveBooking 7
          (Snapshot.bookings
            [stored 1 10 BookingStatus.pencil (atTime 19723 8 0) (atTime 19723 10 0)])
          (candidate 133 BookingStatus.confirmed (atTime 19723 9 0) (atTime 19723 16 0))).failed
        = true
      ∧ (saveBooking 7
          (Snapshot.bookings
            [stored 1 10 BookingStatus.pencil (atTime 19723 8 0) (atTime 19723 10 0)])
          (candidate 133 BookingStatus.confirmed (atTime 19723 9 0) (atTime 19723 16 0))).store
        = Snapshot.bookings
            [Booking.mk
              (candidate 133 BookingStatus.confirmed (atTime 19723 9 0) (atTime 19723 16 0)) 7]
      ∧ stored 1 10 BookingStatus.pencil (atTime 19723 8 0) (atTime 19723 10 0)
        ∉ getBookings
            (saveBooking 7
              (Snapshot.bookings
                [stored 1 10 BookingStatus.pencil (atTime 19723 8 0) (atTime 19723 10 0)])
              (candidate 133 BookingStatus.confirmed (atTime 19723 9 0)
                (atTime 19723 16 0))).store := by
  refine ⟨rfl, by decide, by decide, by decide⟩

/-! ## Rooms held at an instant -/

theorem loadAt_nil (t : Int) : loadAt [] t = 0 := by
  simp [loadAt]

theorem loadAt_cons (b : Booking) (l : List Booking) (t : Int) :
    loadAt (b :: l) t
      = (if b.startDate ≤ t ∧ t < b.endDate then b.numberOfRooms else 0) + loadAt l t := by
  unfold loadAt
  by_cases h : b.startDate ≤ t ∧ t < b.endDate
  · simp [List.filter_cons, h]
  · simp [List.filter_cons, h]

theorem loadAt_append_singleton (l : List Booking) (b : Booking) (t : Int) :
    loadAt (l ++ [b]) t
      = loadAt l t + (if b.startDate ≤ t ∧ t < b.endDate then b.numberOfRooms else 0) := by
  induction l with
  | nil => simp [loadAt_cons, loadAt_nil]
  | cons a l ih => rw [List.cons_append, loadAt_cons, loadAt_cons, ih]; omega

theorem loadAt_nonneg (l : List Booking) (t : Int) (h : ∀ b ∈ l, 0 ≤ b.numberOfRooms) :
    0 ≤ loadAt l t := by
  induction l with
  | nil => simp [loadAt_nil]
  | cons a l ih =>
    rw [loadAt_cons]
    have h1 := h a (List.mem_cons_self a l)
    have h2 := ih (fun x hx => h x (List.mem_cons_of_mem a hx))
    split <;> omega

/-- Removing bookings with non-negative room counts never raises the load. -/
theorem loadAt_sublist {l1 l2 : List Booking} (hs : l1.Sublist l2) (t : Int)
    (h : ∀ b ∈ l2, 0 ≤ b.numberOfRooms) : loadAt l1 t ≤ loadAt l2 t := by
  induction hs with
  | slnil => exact le_refl _
  | cons a _ ih =>
    rw [loadAt_cons]
    have h1 := h a (List.mem_cons_self a _)
    have h2 := ih (fun x hx => h x (List.mem_cons_of_mem a hx))
    split <;> omega
  | cons₂ a _ ih =>
    rw [loadAt_cons, loadAt_cons]
    have h2 := ih (fun x hx => h x (List.mem_cons_of_mem a hx))
    omega

/-- Every booking active at an instant of `[s, e)` is counted on the day of
that instant. -/
theorem loadAt_le_bookedOn (s e t : Int) (hst : s ≤ t) (hte : t < e) (l : List Booking)
    (h : ∀ b ∈ l, 0 ≤ b.numberOfRooms) : loadAt l t ≤ bookedOn s e l (dayOf t) := by
  induction l with
  | nil => simp [loadAt_nil, bookedOn_nil]
  | cons a l ih =>
    rw [loadAt_cons, bookedOn_cons]
    have h1 := h a (List.mem_cons_self a l)
    have h2 := ih (fun x hx => h x (List.mem_cons_of_mem a hx))
    unfold roomsOn
    by_cases hact : a.startDate ≤ t ∧ t < a.endDate
    · have hd1 := dayOf_mono hact.1
      have hd2 := dayOf_mono (le_of_lt hact.2)
      have hov : overlaps s e a ∧ spansDay a (dayOf t) := by
        unfold overlaps spansDay; omega
      rw [if_pos hact, if_pos hov]; omega
    · rw [if_neg hact]
      split <;> omega

/-- For the one-millisecond interval `[t, t + 1)` only bookings active at `t`
are counted. -/
theorem bookedOn_instant_le_loadAt (t d : Int) (l : List Booking)
    (h : ∀ b ∈ l, 0 ≤ b.numberOfRooms) : bookedOn t (t + 1) l d ≤ loadAt l t := by
  induction l with
  | nil => simp [loadAt_nil, bookedOn_nil]
  | cons a l ih =>
    rw [loadAt_cons, bookedOn_cons]
    have h1 := h a (List.mem_cons_self a l)
    have h2 := ih (fun x hx => h x (List.mem_cons_of_mem a hx))
    unfold roomsOn
    by_cases hov : overlaps t (t + 1) a ∧ spansDay a d
    · have hact : a.startDate ≤ t ∧ t < a.endDate := by
        have := hov.1
        unfold overlaps at this; omega
      rw [if_pos hact, if_pos hov]; omega
    · rw [if_neg hov]
      split <;> omega

theorem getBookings_bookings (records : List Booking) :
    getBookings (Snapshot.bookings records) = records := rfl

/-- Whenever the availability test passes, the list that `saveBooking` writes
keeps the room counts non-negative and the load at every instant within 133;
this covers every call that returns normally. -/
theorem saveBooking_preserves_load (now : Int) (store : Snapshot) (bookingData : BookingData)
    (hnn : ∀ b ∈ getBookings store, 0 ≤ b.numberOfRooms)
    (hload : ∀ t, loadAt (getBookings store) t ≤ 133)
    (hrooms : 0 ≤ bookingData.numberOfRooms)
    (ha : (calculateAvailabilityInternal bookingData.startDate bookingData.endDate
      bookingData.numberOfRooms
      (bookingsForCheck bookingData (getBookings store)).1).available = true) :
    (∀ b ∈ getBookings (saveBooking now store bookingData).store, 0 ≤ b.numberOfRooms)
      ∧ ∀ t, loadAt (getBookings (saveBooking now store bookingData).store) t ≤ 133 := by
  have hsub := bookingsForCheck_sublist bookingData (getBookings store)
  have hnnW : ∀ b ∈ (bookingsForCheck bookingData (getBookings store)).1, 0 ≤ b.numberOfRooms :=
    fun b hb => hnn b (hsub.subset hb)
  rw [saveBooking_of_available now store bookingData ha]
  simp only [getBookings_bookings]
  constructor
  · intro b hb
    rcases List.mem_append.1 hb with h1 | h1
    · exact hnnW b h1
    · rw [List.mem_singleton.1 h1]; exact hrooms
  · intro t
    rw [loadAt_append_singleton]
    have hW := le_trans (loadAt_sublist hsub t hnn) (hload t)
    by_cases hact : bookingData.startDate ≤ t ∧ t < bookingData.endDate
    · rw [if_pos hact]
      rw [calculateAvailabilityInternal_closed] at ha
      simp only [decide_eq_true_eq, ge_iff_le] at ha
      have hmem : dayOf t ∈ daySequence bookingData.startDate bookingData.endDate :=
        (mem_daySequence _ _ _).2 ⟨dayOf_mono hact.1, dayOf_mono (le_of_lt hact.2)⟩
      have h1 := minOver_le_of_mem
        (bookedOn bookingData.startDate bookingData.endDate
          (bookingsForCheck bookingData (getBookings store)).1)
        _ (dayOf t) totalRooms hmem
      have h2 := loadAt_le_bookedOn bookingData.startDate bookingData.endDate t hact.1 hact.2
        (bookingsForCheck bookingData (getBookings store)).1 hnnW
      have h3 : totalRooms = 133 := rfl
      show _ + bookingData.numberOfRooms ≤ 133
      omega
    · rw [if_neg hact]; omega

/-- In a reachable store the room counts are non-negative and the load at
every instant is within 133. -/
theorem reachable_load {store : Snapshot} (h : Reachable store) :
    (∀ b ∈ getBookings store, 0 ≤ b.numberOfRooms)
      ∧ ∀ t, loadAt (getBookings store) t ≤ 133 := by
  induction h with
  | empty store h0 =>
    rw [h0]
    exact ⟨fun b hb => by simp at hb, fun t => by simp [loadAt_nil]⟩
  | save now store bookingData _ hrooms _ hok ih =>
    exact saveBooking_preserves_load now store bookingData ih.1 ih.2 (by omega)
      ((saveBooking_failed_false_iff now store bookingData).1 hok).1

/-- C6, the claim as stated fails: two successful `saveBooking` calls from
the empty store, each for 100 rooms on day 19723 (08:00-10:00 and
14:00-16:00, which do not overlap in time), give a reachable store for which
the whole-day query of `AvailabilitySummary` reports -67 available rooms. -/
theorem reachable_day_query_negative :
    Reachable
        (saveBooking 2
          (saveBooking 1 Snapshot.absent
            (candidate 100 BookingStatus.confirmed (atTime 19723 8 0) (atTime 19723 10 0))).store
          (candidate 100 BookingStatus.confirmed (atTime 19723 14 0) (atTime 19723 16 0))).store
      ∧ (checkRoomAvailability
          (saveBooking 2
            (saveBooking 1 Snapshot.absent
              (candidate 100 BookingStatus.confirmed (atTime 19723 8 0)
                (atTime 19723 10 0))).store
            (candidate 100 BookingStatus.confirmed (atTime 19723 14 0)
              (atTime 19723 16 0))).store
          (atTime 19723 0 0) (atTime 19723 0 0 + 86399999) 1).availableRooms = -67 := by
  refine ⟨?_, by decide⟩
  exact Reachable.save 2 _ _
    (Reachable.save 1 _ _ (Reachable.empty Snapshot.absent rfl) (by decide) (by decide)
      (by decide))
    (by decide) (by decide) (by decide)

/-- C6 as amended: in every store reachable from the empty store by
successful `saveBooking` calls whose candidates satisfy
`1 ≤ numberOfRooms ≤ 133` and `startDate < endDate`, at every instant `t` the
rooms of the bookings with `startDate ≤ t < endDate` never exceed 133, and
`checkRoomAvailability` queried for the single instant `[t, t + 1)` reports
`availableRooms ≥ 0`. -/
theorem reachable_instant_capacity (store : Snapshot) (h : Reachable store) (t : Int) :
    loadAt (getBookings store) t ≤ 133
      ∧ (checkRoomAvailability store t (t + 1) 1).availableRooms ≥ 0 := by
  have hinv := reachable_load h
  refine ⟨hinv.2 t, ?_⟩
  unfold checkRoomAvailability
  rw [calculateAvailabilityInternal_closed]
  simp only [ge_iff_le]
  apply le_minOver _ _ _ _ _ (by simp [totalRooms])
  intro d _
  have h1 := bookedOn_instant_le_loadAt t d (getBookings store) hinv.1
  have h2 := hinv.2 t
  have h3 : totalRooms = 133 := rfl
  omega

/-- Witness of C6: the store with two bookings of 100 rooms on one day,
queried at 09:00. -/
theorem reachable_instant_capacity_witness :
    (checkRoomAvailability
        (saveBooking 2
          (saveBooking 1 Snapshot.absent
            (candidate 100 BookingStatus.confirmed (atTime 19723 8 0) (atTime 19723 10 0))).store
          (candidate 100 BookingStatus.confirmed (atTime 19723 14 0) (atTime 19723 16 0))).store
        (atTime 19723 9 0) (atTime 19723 9 0 + 1) 1).availableRooms ≥ 0 :=
  (reachable_instant_capacity _
    (Reachable.save 2 _ _
      (Reachable.save 1 _ _ (Reachable.empty Snapshot.absent rfl) (by decide) (by decide)
        (by decide))
      (by decide) (by decide) (by decide))
    (atTime 19723 9 0)).2

/-! ## Further claims about the availability calculation -/

theorem dailyAvailability_get (s e n : Int) (bookings : List Booking) (d : Int)
    (hd : d ∈ daySequence s e) :
    mapGet (calculateAvailabilityInternal s e n bookings).dailyAvailability d
      = some (totalRooms - bookedOn s e bookings d) := by
  rw [calculateAvailabilityInternal_closed]
  simp only
  rw [mapGet_tabulate _ _ d hd]

theorem dailyAvailability_keys (s e n : Int) (bookings : List Booking) :
    (calculateAvailabilityInternal s e n bookings).dailyAvailability.map Prod.fst
      = daySequence s e := by
  rw [calculateAvailabilityInternal_closed]
  exact mapKeys_tabulate _ _

theorem length_dayRange (n : Nat) : ∀ a : Int, (dayRange a n).length = n := by
  induction n with
  | zero => intro a; rfl
  | succ n ih => intro a; simp [dayRange, ih]

/-- Shifting the interval by one day keeps the set of counted bookings when no
booking boundary lies in `[s, s + 1 day]` or `[e, e + 1 day]`. -/
theorem bookedOn_shift (s e d : Int) (bookings : List Booking)
    (hb : ∀ b ∈ bookings,
      ¬ (s ≤ b.startDate ∧ b.startDate ≤ s + msPerDay)
        ∧ ¬ (s ≤ b.endDate ∧ b.endDate ≤ s + msPerDay)
        ∧ ¬ (e ≤ b.startDate ∧ b.startDate ≤ e + msPerDay)
        ∧ ¬ (e ≤ b.endDate ∧ b.endDate ≤ e + msPerDay)) :
    bookedOn (s + msPerDay) (e + msPerDay) bookings d = bookedOn s e bookings d := by
  induction bookings with
  | nil => rw [bookedOn_nil, bookedOn_nil]
  | cons b t ih =>
    rw [bookedOn_cons, bookedOn_cons, ih (fun x hx => hb x (List.mem_cons_of_mem b hx))]
    have h := hb b (List.mem_cons_self b t)
    have hiff : overlaps (s + msPerDay) (e + msPerDay) b ↔ overlaps s e b := by
      unfold overlaps
      unfold msPerDay at h ⊢
      omega
    simp only [roomsOn, hiff]

/-- C11: if no booking's `startDate` or `endDate` lies in the closed ranges
`[s, s + 1 day]` or `[e, e + 1 day]`, then for every day that belongs to the
day sequence of `[s, e)` and to the day sequence of `[s + 1 day, e + 1 day)`,
`calculateAvailabilityInternal` reports a per-day availability for both
intervals and the two values are the same (this needs no `s < e`). -/
theorem calculateAvailabilityInternal_shift (s e n : Int) (bookings : List Booking) (d : Int)
    (hb : ∀ b ∈ bookings,
      ¬ (s ≤ b.startDate ∧ b.startDate ≤ s + msPerDay)
        ∧ ¬ (s ≤ b.endDate ∧ b.endDate ≤ s + msPerDay)
        ∧ ¬ (e ≤ b.startDate ∧ b.startDate ≤ e + msPerDay)
        ∧ ¬ (e ≤ b.endDate ∧ b.endDate ≤ e + msPerDay))
    (hd : dayOf s ≤ d ∧ d ≤ dayOf e)
    (hd2 : dayOf (s + msPerDay) ≤ d ∧ d ≤ dayOf (e + msPerDay)) :
    ∃ v : Int,
      mapGet (calculateAvailabilityInternal s e n bookings).dailyAvailability d = some v
        ∧ mapGet (calculateAvailabilityInternal (s + msPerDay) (e + msPerDay) n
            bookings).dailyAvailability d = some v := by
  refine ⟨totalRooms - bookedOn s e bookings d, ?_, ?_⟩
  · exact dailyAvailability_get s e n bookings d ((mem_daySequence s e d).2 hd)
  · rw [dailyAvailability_get _ _ n bookings d ((mem_daySequence _ _ d).2 hd2),
      bookedOn_shift s e d bookings hb]

/-- Witness of C11: a booking of 100 rooms from 12:00 on 3 January to 12:00
on 5 January, the interval from 00:00 on 1 January to 00:00 on 4 January,
and the day 3 January. -/
theorem calculateAvailabilityInternal_shift_witness :
    ∃ v : Int,
      mapGet (calculateAvailabilityInternal (jan2024 1) (jan2024 4) 1
          [stored 1 100 BookingStatus.confirmed (atTime 19725 12 0)
            (atTime 19727 12 0)]).dailyAvailability 19725 = some v
        ∧ mapGet (calculateAvailabilityInternal (jan2024 1 + msPerDay) (jan2024 4 + msPerDay) 1
            [stored 1 100 BookingStatus.confirmed (atTime 19725 12 0)
              (atTime 19727 12 0)]).dailyAvailability 19725 = some v :=
  calculateAvailabilityInternal_shift (jan2024 1) (jan2024 4) 1
    [stored 1 100 BookingStatus.confirmed (atTime 19725 12 0) (atTime 19727 12 0)] 19725
    (by decide) (by decide) (by decide)

/-- C12: when the day of `s` is not after the day of `e`, the days for which
`calculateAvailabilityInternal` reports a per-day value are exactly the days
from the day of `s` through the day of `e`, in strictly ascending order (so
each exactly once), there are `dayOf e - dayOf s + 1` of them, there is
exactly one when `s` and `e` fall on the same day, and this holds for every
list of bookings, so no booking adds a day outside the sequence. -/
theorem calculateAvailabilityInternal_days (s e n : Int) (bookings : List Booking)
    (hdays : dayOf s ≤ dayOf e) :
    (∀ d, d ∈ (calculateAvailabilityInternal s e n bookings).dailyAvailability.map Prod.fst
        ↔ dayOf s ≤ d ∧ d ≤ dayOf e)
      ∧ ((calculateAvailabilityInternal s e n bookings).dailyAvailability.map Prod.fst).Pairwise
          (fun x y => x < y)
      ∧ (((calculateAvailabilityInternal s e n bookings).dailyAvailability.map
          Prod.fst).length : Int) = dayOf e - dayOf s + 1
      ∧ (dayOf s = dayOf e →
          (calculateAvailabilityInternal s e n bookings).dailyAvailability.map Prod.fst
            = [dayOf s]) := by
  rw [dailyAvailability_keys]
  refine ⟨fun d => mem_daySequence s e d, daySequence_pairwise s e, ?_, ?_⟩
  · unfold daySequence startOfDay
    rw [length_dayRange, loopFuel_mul]
    omega
  · intro hsame
    unfold daySequence startOfDay
    rw [loopFuel_mul, ← hsame]
    have : (dayOf s - dayOf s + 1).toNat = 1 := by omega
    rw [this]
    rfl

/-- Witness of C12: the interval from 2 to 4 January with a booking that
spans 1 to 7 January reports exactly the three days 2, 3 and 4 January. -/
theorem calculateAvailabilityInternal_days_witness :
    (((calculateAvailabilityInternal (jan2024 2) (jan2024 4) 1
        [stored 1 100 BookingStatus.confirmed (jan2024 1) (jan2024 7)]).dailyAvailability.map
          Prod.fst).length : Int) = dayOf (jan2024 4) - dayOf (jan2024 2) + 1 :=
  (calculateAvailabilityInternal_days (jan2024 2) (jan2024 4) 1
    [stored 1 100 BookingStatus.confirmed (jan2024 1) (jan2024 7)] (by decide)).2.2.1

/-- C13: `checkRoomAvailabilityWithoutBookings` returns exactly what
`calculateAvailabilityInternal` returns over the stored bookings whose id is
not in the excluded list; with an empty list it equals
`checkRoomAvailability`; and a stored booking whose id is excluded contributes
nothing: the result is the same as for the store without that booking. -/
theorem checkRoomAvailabilityWithoutBookings_spec (store : Snapshot) (s e n : Int)
    (excludeBookingIds : List Int) :
    checkRoomAvailabilityWithoutBookings store s e n excludeBookingIds
        = calculateAvailabilityInternal s e n
            ((getBookings store).filter (fun b => decide (b.id ∉ excludeBookingIds)))
      ∧ checkRoomAvailabilityWithoutBookings store s e n [] = checkRoomAvailability store s e n
      ∧ (∀ (before after : List Booking) (b : Booking), b.id ∈ excludeBookingIds →
          checkRoomAvailabilityWithoutBookings (Snapshot.bookings (before ++ b :: after)) s e n
              excludeBookingIds
            = checkRoomAvailabilityWithoutBookings (Snapshot.bookings (before ++ after)) s e n
              excludeBookingIds) := by
  refine ⟨?_, ?_, ?_⟩
  · unfold checkRoomAvailabilityWithoutBookings
    congr 1
    apply List.filter_congr
    intro b _
    simp
  · unfold checkRoomAvailabilityWithoutBookings checkRoomAvailability
    congr 1
    simp
  · intro before after b hb
    unfold checkRoomAvailabilityWithoutBookings
    congr 1
    simp [getBookings, List.filter_append, List.filter_cons, hb]

/-! ## Claims about update and delete -/

theorem findIndex_none (p : Booking → Bool) (l : List Booking) (h : ∀ b ∈ l, p b = false) :
    findIndex p l = none := by
  induction l with
  | nil => rfl
  | cons a t ih =>
    simp only [findIndex]
    rw [h a (List.mem_cons_self a t), ih (fun x hx => h x (List.mem_cons_of_mem a hx))]
    rfl

theorem findIndex_append (p : Booking → Bool) (before : List Booking) (b : Booking)
    (after : List Booking) (hbefore : ∀ x ∈ before, p x = false) (hb : p b = true) :
    findIndex p (before ++ b :: after) = some before.length := by
  induction before with
  | nil => simp [findIndex, hb]
  | cons a t ih =>
    have h1 := hbefore a (List.mem_cons_self a t)
    have h2 := ih (fun x hx => hbefore x (List.mem_cons_of_mem a hx))
    show findIndex p (a :: (t ++ b :: after)) = _
    rw [findIndex, h1, h2]
    rfl

theorem get?_split (before : List Booking) (b : Booking) (after : List Booking) :
    (before ++ b :: after).get? before.length = some b := by
  induction before with
  | nil => rfl
  | cons a t ih => simpa using ih

theorem set_split (before : List Booking) (b m : Booking) (after : List Booking) :
    (before ++ b :: after).set before.length m = before ++ m :: after := by
  induction before with
  | nil => rfl
  | cons a t ih => simp [ih]

/-- A list that holds a record with the given id splits at the first such record. -/
theorem exists_first_with_id (bookingId : Int) (l : List Booking)
    (h : ∃ b ∈ l, b.id = bookingId) :
    ∃ (before : List Booking) (b : Booking) (after : List Booking),
      l = before ++ b :: after ∧ (∀ x ∈ before, x.id ≠ bookingId) ∧ b.id = bookingId := by
  induction l with
  | nil => obtain ⟨b, hb, _⟩ := h; simp at hb
  | cons a t ih =>
    by_cases ha : a.id = bookingId
    · exact ⟨[], a, t, rfl, fun x hx => by simp at hx, ha⟩
    · obtain ⟨b, hb, hid⟩ := h
      have hbt : b ∈ t := by
        rcases List.mem_cons.1 hb with h1 | h1
        · subst h1; exact absurd hid ha
        · exact h1
      obtain ⟨before, c, after, hl, hbefore, hc⟩ := ih ⟨b, hbt, hid⟩
      refine ⟨a :: before, c, after, by rw [hl]; rfl, ?_, hc⟩
      intro x hx
      rcases List.mem_cons.1 hx with h1 | h1
      · subst h1; exact ha
      · exact hbefore x h1

theorem updateBooking_of_absent (store : Snapshot) (bookingId : Int) (updatedData : Patch)
    (h : ∀ b ∈ getBookings store, b.id ≠ bookingId) :
    updateBooking store bookingId updatedData
      = UpdateOutcome.mk (Except.error "Booking not found") store := by
  unfold updateBooking
  rw [findIndex_none _ _ (fun b hb => by simpa using h b hb)]

theorem updateBooking_of_split (store : Snapshot) (bookingId : Int) (updatedData : Patch)
    (before : List Booking) (b : Booking) (after : List Booking)
    (hl : getBookings store = before ++ b :: after)
    (hbefore : ∀ x ∈ before, x.id ≠ bookingId) (hb : b.id = bookingId) :
    updateBooking store bookingId updatedData
      = UpdateOutcome.mk (Except.ok (mergePatch b updatedData))
          (Snapshot.bookings (before ++ mergePatch b updatedData :: after)) := by
  unfold updateBooking
  rw [hl, findIndex_append _ before b after (fun x hx => by simpa using hbefore x hx)
    (by simpa using hb)]
  simp only
  rw [get?_split]
  simp only
  rw [set_split]

/-- C14: `updateBooking` fails if and only if no stored booking has the id,
the only error it throws is 'Booking not found' (so it never fails for
capacity reasons), and when it fails the persisted snapshot is unchanged. -/
theorem updateBooking_fails_iff (store : Snapshot) (bookingId : Int) (updatedData : Patch) :
    ((updateBooking store bookingId updatedData).result = Except.error "Booking not found"
        ↔ ∀ b ∈ getBookings store, b.id ≠ bookingId)
      ∧ ((updateBooking store bookingId updatedData).failed = true
        ↔ ∀ b ∈ getBookings store, b.id ≠ bookingId)
      ∧ ((updateBooking store bookingId updatedData).failed = true →
          (updateBooking store bookingId updatedData).store = store) := by
  by_cases h : ∃ b ∈ getBookings store, b.id = bookingId
  · obtain ⟨before, b, after, hl, hbefore, hb⟩ := exists_first_with_id bookingId _ h
    rw [updateBooking_of_split store bookingId updatedData before b after hl hbefore hb]
    have hno : ¬ ∀ x ∈ getBookings store, x.id ≠ bookingId := by
      intro hall
      obtain ⟨x, hx, hid⟩ := h
      exact hall x hx hid
    exact ⟨⟨fun hh => by simp at hh, fun hh => absurd hh hno⟩,
      ⟨fun hh => by simp [UpdateOutcome.failed] at hh, fun hh => absurd hh hno⟩,
      fun hh => by simp [UpdateOutcome.failed] at hh⟩
  · have hall : ∀ b ∈ getBookings store, b.id ≠ bookingId :=
      fun b hb hid => h ⟨b, hb, hid⟩
    rw [updateBooking_of_absent store bookingId updatedData hall]
    exact ⟨⟨fun _ => hall, fun _ => rfl⟩, ⟨fun _ => hall, fun _ => rfl⟩, fun _ => rfl⟩

/-- C15: when a stored booking has the id, the persisted list after
`updateBooking` is the prior list with the first record of that id replaced
in place by the merged record (same length, same order, every other record
unchanged), the merged record is returned, and each of its fields is the
value the patch names for it, or the old value when the patch does not name
the field. -/
theorem updateBooking_merges (store : Snapshot) (bookingId : Int) (updatedData : Patch)
    (h : ∃ b ∈ getBookings store, b.id = bookingId) :
    ∃ (before : List Booking) (b merged : Booking) (after : List Booking),
      getBookings store = before ++ b :: after
        ∧ (∀ x ∈ before, x.id ≠ bookingId) ∧ b.id = bookingId
        ∧ (updateBooking store bookingId updatedData).store
            = Snapshot.bookings (before ++ merged :: after)
        ∧ (updateBooking store bookingId updatedData).result = Except.ok merged
        ∧ (getBookings (updateBooking store bookingId updatedData).store).length
            = (getBookings store).length
        ∧ merged.programTitle = updatedData.programTitle.getD b.programTitle
        ∧ merged.programType = updatedData.programType.getD b.programType
        ∧ merged.numberOfRooms = updatedData.numberOfRooms.getD b.numberOfRooms
        ∧ merged.bookingStatus = updatedData.bookingStatus.getD b.bookingStatus
        ∧ merged.startDate = updatedData.startDate.getD b.startDate
        ∧ merged.endDate = updatedData.endDate.getD b.endDate
        ∧ merged.checkInTime = updatedData.checkInTime.getD b.checkInTime
        ∧ merged.checkOutTime = updatedData.checkOutTime.getD b.checkOutTime
        ∧ merged.createdAt = updatedData.createdAt.getD b.createdAt
        ∧ merged.id = updatedData.id.getD b.id := by
  obtain ⟨before, b, after, hl, hbefore, hb⟩ := exists_first_with_id bookingId _ h
  refine ⟨before, b, mergePatch b updatedData, after, hl, hbefore, hb, ?_, ?_, ?_,
    rfl, rfl, rfl, rfl, rfl, rfl, rfl, rfl, rfl, rfl⟩
  · rw [updateBooking_of_split store bookingId updatedData before b after hl hbefore hb]
  · rw [updateBooking_of_split store bookingId updatedData before b after hl hbefore hb]
  · rw [updateBooking_of_split store bookingId updatedData before b after hl hbefore hb, hl]
    simp [getBookings]

/-- Witness of C15: two stored bookings, the second one is given 50 rooms. -/
theorem updateBooking_merges_witness :
    ∃ (before : List Booking) (b merged : Booking) (after : List Booking),
      getBookings
          (Snapshot.bookings
            [stored 1 10 BookingStatus.pencil (jan2024 1) (jan2024 3),
             stored 2 100 BookingStatus.confirmed (jan2024 1) (jan2024 3)])
          = before ++ b :: after
        ∧ (updateBooking
            (Snapshot.bookings
              [stored 1 10 BookingStatus.pencil (jan2024 1) (jan2024 3),
               stored 2 100 BookingStatus.confirmed (jan2024 1) (jan2024 3)])
            2 (Patch.mk none none (some 50) none none none none none none none)).result
          = Except.ok merged :=
  match updateBooking_merges
      (Snapshot.bookings
        [stored 1 10 BookingStatus.pencil (jan2024 1) (jan2024 3),
         stored 2 100 BookingStatus.confirmed (jan2024 1) (jan2024 3)])
      2 (Patch.mk none none (some 50) none none none none none none none)
      ⟨stored 2 100 BookingStatus.confirmed (jan2024 1) (jan2024 3), by decide, rfl⟩ with
  | ⟨before, b, merged, after, h1, _, _, _, h5, _⟩ => ⟨before, b, merged, after, h1, h5⟩

/-- C16: `deleteBooking` returns the success indicator, the persisted list
afterwards is the prior list without the records of that id, the others in
their order, and when no stored booking has the id the listed bookings are
the same before and after. -/
theorem deleteBooking_spec (store : Snapshot) (bookingId : Int) :
    (deleteBooking store bookingId).success = true
      ∧ (deleteBooking store bookingId).store
          = Snapshot.bookings ((getBookings store).filter (fun b => decide (b.id ≠ bookingId)))
      ∧ (∀ b, b ∈ getBookings (deleteBooking store bookingId).store
          ↔ b ∈ getBookings store ∧ b.id ≠ bookingId)
      ∧ ((getBookings (deleteBooking store bookingId).store).Sublist (getBookings store))
      ∧ ((∀ b ∈ getBookings store, b.id ≠ bookingId) →
          getBookings (deleteBooking store bookingId).store = getBookings store) := by
  have hfilter : (getBookings store).filter (fun booking => booking.id != bookingId)
      = (getBookings store).filter (fun b => decide (b.id ≠ bookingId)) := by
    apply List.filter_congr
    intro b _
    by_cases hid : b.id = bookingId <;> simp [hid]
  refine ⟨rfl, ?_, ?_, ?_, ?_⟩
  · unfold deleteBooking
    rw [hfilter]
  · intro b
    unfold deleteBooking
    simp [getBookings_bookings, List.mem_filter]
  · unfold deleteBooking
    rw [getBookings_bookings]
    exact List.filter_sublist _
  · intro hall
    unfold deleteBooking
    rw [getBookings_bookings]
    apply List.filter_eq_self.2
    intro b hb
    simpa using hall b hb

/-! ## Serialisation, ids and intervals -/

/-- Reading back keeps every record as the booking it stands for: all fields
other than the date fields are equal and each date field denotes the same
instant. -/
theorem readBack_toBooking (records : List BookingRecord) :
    (readBack records).map BookingRecord.toBooking = records.map BookingRecord.toBooking := by
  unfold readBack
  rw [List.map_map, List.map_map]
  apply List.map_congr_left
  intro r _
  cases r with
  | mk t ty n st sd ed ci co ca id =>
    cases sd <;> cases ed <;> cases ca <;> rfl

/-- Reading back gives `startDate` and `endDate` as `Date` objects and leaves
`createdAt` as the ISO text that was written. -/
theorem readBack_fields (records : List BookingRecord) :
    ∀ r ∈ readBack records, ∃ o ∈ records,
      r.startDate = DateValue.date o.startDate.instant
        ∧ r.endDate = DateValue.date o.endDate.instant
        ∧ r.createdAt = DateValue.isoText o.createdAt.instant := by
  intro r hr
  unfold readBack at hr
  rw [List.map_map] at hr
  obtain ⟨o, ho, rfl⟩ := List.mem_map.1 hr
  refine ⟨o, ho, ?_⟩
  cases o with
  | mk t ty n st sd ed ci co ca id =>
    cases sd <;> cases ed <;> cases ca <;> exact ⟨rfl, rfl, rfl⟩

/-- C17, the code at the failing input: the booking that `saveBooking` has
just persisted for a candidate created at instant 5 is read back with
`startDate` and `endDate` as `Date` objects but with `createdAt` as ISO text,
so the list read back is not the list that was serialised. -/
theorem readBack_createdAt_not_revived :
    readBack [newRecord (BookingData.mk "Workshop" "Other" 40 BookingStatus.pencil
        (jan2024 2) (jan2024 4) "14:00" "11:00" 5) 7]
        = [BookingRecord.mk "Workshop" "Other" 40 BookingStatus.pencil
            (DateValue.date (jan2024 2)) (DateValue.date (jan2024 4)) "14:00" "11:00"
            (DateValue.isoText 5) 7]
      ∧ (newRecord (BookingData.mk "Workshop" "Other" 40 BookingStatus.pencil
          (jan2024 2) (jan2024 4) "14:00" "11:00" 5) 7).createdAt = DateValue.date 5
      ∧ readBack [newRecord (BookingData.mk "Workshop" "Other" 40 BookingStatus.pencil
          (jan2024 2) (jan2024 4) "14:00" "11:00" 5) 7]
        ≠ [newRecord (BookingData.mk "Workshop" "Other" 40 BookingStatus.pencil
          (jan2024 2) (jan2024 4) "14:00" "11:00" 5) 7] := by
  decide

/-- C18, the claim as stated fails when the clock returns a stored id: the
store holds one booking with id 7, `Date.now()` is 7, the call succeeds and
two stored bookings carry the id 7. -/
theorem saveBooking_duplicates_id :
    ((getBookings
        (Snapshot.bookings [stored 7 10 BookingStatus.pencil (jan2024 1) (jan2024 3)])).map
          (fun b => b.id)).Nodup
      ∧ (saveBooking 7
          (Snapshot.bookings [stored 7 10 BookingStatus.pencil (jan2024 1) (jan2024 3)])
          (candidate 5 BookingStatus.pencil (jan2024 5) (jan2024 6))).failed = false
      ∧ (getBookings
          (saveBooking 7
            (Snapshot.bookings [stored 7 10 BookingStatus.pencil (jan2024 1) (jan2024 3)])
            (candidate 5 BookingStatus.pencil (jan2024 5) (jan2024 6))).store).map
              (fun b => b.id) = [7, 7]
      ∧ ¬ ((getBookings
          (saveBooking 7
            (Snapshot.bookings [stored 7 10 BookingStatus.pencil (jan2024 1) (jan2024 3)])
            (candidate 5 BookingStatus.pencil (jan2024 5) (jan2024 6))).store).map
              (fun b => b.id)).Nodup := by
  decide

/-- C18 as amended: for every store whose ids are pairwise distinct and every
successful `saveBooking` call in which the value of `Date.now()` differs from
every stored booking's id, the ids of the persisted list afterwards are
pairwise distinct, and the new booking carries that value as its id. -/
theorem saveBooking_ids_nodup (now : Int) (store : Snapshot) (bookingData : BookingData)
    (hnd : ((getBookings store).map (fun b => b.id)).Nodup)
    (hfresh : ∀ b ∈ getBookings store, b.id ≠ now)
    (hok : (saveBooking now store bookingData).failed = false) :
    ((getBookings (saveBooking now store bookingData).store).map (fun b => b.id)).Nodup
      ∧ (saveBooking now store bookingData).result = Except.ok (Booking.mk bookingData now) := by
  obtain ⟨ha, hflag⟩ := (saveBooking_failed_false_iff now store bookingData).1 hok
  have hsub := bookingsForCheck_sublist bookingData (getBookings store)
  rw [saveBooking_of_available now store bookingData ha, hflag]
  refine ⟨?_, rfl⟩
  simp only [getBookings_bookings, List.map_append, List.map_cons, List.map_nil]
  apply List.Nodup.append (hnd.sublist (hsub.map _)) (List.nodup_singleton _)
  intro x hx hx2
  obtain ⟨b, hb, rfl⟩ := List.mem_map.1 hx
  exact hfresh b (hsub.subset hb) (List.mem_singleton.1 hx2)

/-- Witness of C18: the store holds one booking with id 1 and `Date.now()`
is 7. -/
theorem saveBooking_ids_nodup_witness :
    ((getBookings
        (saveBooking 7
          (Snapshot.bookings [stored 1 10 BookingStatus.pencil (jan2024 1) (jan2024 3)])
          (candidate 5 BookingStatus.pencil (jan2024 5) (jan2024 6))).store).map
            (fun b => b.id)).Nodup :=
  (saveBooking_ids_nodup 7
    (Snapshot.bookings [stored 1 10 BookingStatus.pencil (jan2024 1) (jan2024 3)])
    (candidate 5 BookingStatus.pencil (jan2024 5) (jan2024 6))
    (by decide) (by decide) (by decide)).1

/-- C19, the claim as stated fails for a patch that names `id`: updating the
stored booking with id 1 by a patch whose `id` is 9 succeeds, the updated
record has the id 9 and the ids of the store change from `[1]` to `[9]`. -/
theorem updateBooking_changes_id :
    (updateBooking
        (Snapshot.bookings [stored 1 10 BookingStatus.pencil (jan2024 1) (jan2024 3)])
        1 (Patch.mk none none none none none none none none none (some 9))).failed = false
      ∧ (updateBooking
          (Snapshot.bookings [stored 1 10 BookingStatus.pencil (jan2024 1) (jan2024 3)])
          1 (Patch.mk none none none none none none none none none (some 9))).result
        = Except.ok (stored 9 10 BookingStatus.pencil (jan2024 1) (jan2024 3))
      ∧ (getBookings
          (updateBooking
            (Snapshot.bookings [stored 1 10 BookingStatus.pencil (jan2024 1) (jan2024 3)])
            1 (Patch.mk none none none none none none none none none (some 9))).store).map
              (fun b => b.id) = [9]
      ∧ (getBookings
          (Snapshot.bookings [stored 1 10 BookingStatus.pencil (jan2024 1) (jan2024 3)])).map
            (fun b => b.id) = [1] := by
  refine ⟨rfl, rfl, rfl, rfl⟩

/-- C19 as amended: for every store, every id and every patch that does not
name `id`, after `updateBooking` succeeds the updated record's id is still
that id and the ids of the store, in their order, are unchanged. -/
theorem updateBooking_keeps_id (store : Snapshot) (bookingId : Int) (updatedData : Patch)
    (hpatch : updatedData.id = none)
    (hok : (updateBooking store bookingId updatedData).failed = false) :
    (∃ merged, (updateBooking store bookingId updatedData).result = Except.ok merged
        ∧ merged.id = bookingId)
      ∧ (getBookings (updateBooking store bookingId updatedData).store).map (fun b => b.id)
          = (getBookings store).map (fun b => b.id) := by
  by_cases h : ∃ b ∈ getBookings store, b.id = bookingId
  · obtain ⟨before, b, after, hl, hbefore, hb⟩ := exists_first_with_id bookingId _ h
    have hid : (mergePatch b updatedData).id = b.id := by
      simp [mergePatch, hpatch]
    rw [updateBooking_of_split store bookingId updatedData before b after hl hbefore hb]
    refine ⟨⟨mergePatch b updatedData, rfl, by rw [hid, hb]⟩, ?_⟩
    rw [getBookings_bookings, hl]
    simp [hid]
  · have hall : ∀ b ∈ getBookings store, b.id ≠ bookingId :=
      fun b hb hid => h ⟨b, hb, hid⟩
    rw [updateBooking_of_absent store bookingId updatedData hall] at hok
    simp [UpdateOutcome.failed] at hok

/-- Witness of C19: the stored booking with id 2 is given 50 rooms. -/
theorem updateBooking_keeps_id_witness :
    (getBookings
        (updateBooking
          (Snapshot.bookings
            [stored 1 10 BookingStatus.pencil (jan2024 1) (jan2024 3),
             stored 2 100 BookingStatus.confirmed (jan2024 1) (jan2024 3)])
          2 (Patch.mk none none (some 50) none none none none none none none)).store).map
            (fun b => b.id)
      = (getBookings
          (Snapshot.bookings
            [stored 1 10 BookingStatus.pencil (jan2024 1) (jan2024 3),
             stored 2 100 BookingStatus.confirmed (jan2024 1) (jan2024 3)])).map
              (fun b => b.id) :=
  (updateBooking_keeps_id
    (Snapshot.bookings
      [stored 1 10 BookingStatus.pencil (jan2024 1) (jan2024 3),
       stored 2 100 BookingStatus.confirmed (jan2024 1) (jan2024 3)])
    2 (Patch.mk none none (some 50) none none none none none none none) rfl rfl).2

/-- C20, the code at the failing input: on the empty store `saveBooking`
accepts a candidate whose check-in is at 14:00 and whose check-out is at
11:00 of the same day, and stores a booking whose `startDate` is after its
`endDate`. -/
theorem saveBooking_accepts_reversed_interval :
    (saveBooking 7 Snapshot.absent
        (candidate 1 BookingStatus.pencil (atTime 19723 14 0) (atTime 19723 11 0))).failed = false
      ∧ getBookings
          (saveBooking 7 Snapshot.absent
            (candidate 1 BookingStatus.pencil (atTime 19723 14 0) (atTime 19723 11 0))).store
        = [Booking.mk
            (candidate 1 BookingStatus.pencil (atTime 19723 14 0) (atTime 19723 11 0)) 7]
      ∧ ¬ ((Booking.mk
            (candidate 1 BookingStatus.pencil (atTime 19723 14 0) (atTime 19723 11 0))
            7).startDate
          < (Booking.mk
            (candidate 1 BookingStatus.pencil (atTime 19723 14 0) (atTime 19723 11 0))
            7).endDate) := by
  decide

/-! ## Room counts, capacity and check-then-book -/

/-- A successful `saveBooking` never adds more than 133 rooms: the request
passed the test `minAvailableRooms >= numberOfRooms` and the minimum starts
at 133. -/
theorem saveBooking_rooms_le (now : Int) (store : Snapshot) (bookingData : BookingData)
    (hok : (saveBooking now store bookingData).failed = false) :
    bookingData.numberOfRooms ≤ 133 := by
  have ha := ((saveBooking_failed_false_iff now store bookingData).1 hok).1
  rw [calculateAvailabilityInternal_closed] at ha
  simp only [decide_eq_true_eq, ge_iff_le] at ha
  have h1 := minOver_le_start
    (bookedOn bookingData.startDate bookingData.endDate
      (bookingsForCheck bookingData (getBookings store)).1)
    (daySequence bookingData.startDate bookingData.endDate) totalRooms
  have h2 : totalRooms = 133 := rfl
  omega

/-- C21, the code at the failing input: on the empty store `saveBooking`
accepts a candidate for 0 rooms and a candidate for -5 rooms and stores them,
so a stored booking has a room count below 1. -/
theorem saveBooking_accepts_zero_rooms :
    (saveBooking 7 Snapshot.absent
        (candidate 0 BookingStatus.pencil (jan2024 1) (jan2024 2))).failed = false
      ∧ (getBookings
          (saveBooking 7 Snapshot.absent
            (candidate 0 BookingStatus.pencil (jan2024 1) (jan2024 2))).store).map
              (fun b => b.numberOfRooms) = [0]
      ∧ (saveBooking 7 Snapshot.absent
          (candidate (-5) BookingStatus.confirmed (jan2024 1) (jan2024 2))).failed = false
      ∧ (getBookings
          (saveBooking 7 Snapshot.absent
            (candidate (-5) BookingStatus.confirmed (jan2024 1) (jan2024 2))).store).map
              (fun b => b.numberOfRooms) = [-5] := by
  decide

theorem bookedOn_sublist (s e d : Int) {l1 l2 : List Booking} (hs : l1.Sublist l2)
    (h : ∀ b ∈ l2, 0 ≤ b.numberOfRooms) : bookedOn s e l1 d ≤ bookedOn s e l2 d := by
  induction hs with
  | slnil => exact le_refl _
  | cons a _ ih =>
    rw [bookedOn_cons]
    have h1 := h a (List.mem_cons_self a _)
    have h2 := ih (fun x hx => h x (List.mem_cons_of_mem a hx))
    unfold roomsOn
    split <;> omega
  | cons₂ a _ ih =>
    rw [bookedOn_cons, bookedOn_cons]
    have h2 := ih (fun x hx => h x (List.mem_cons_of_mem a hx))
    omega

/-- Fewer booked rooms on every day never lower the running minimum. -/
theorem minOver_mono (g1 g2 : Int → Int) (keys : List Int) (st : Int)
    (h : ∀ d ∈ keys, g1 d ≤ g2 d) : minOver g2 keys st ≤ minOver g1 keys st := by
  apply le_minOver g1 keys _ _ st (minOver_le_start g2 keys st)
  intro d hd
  have h1 := minOver_le_of_mem g2 keys d st hd
  have h2 := h d hd
  omega

/-- C24: for a store with non-negative room counts in which, at every
instant, the rooms of the stored bookings with `startDate ≤ t < endDate` sum
to at most 133, and a candidate with a non-negative room count (and
`startDate < endDate`), after a successful `saveBooking` the same bound holds
at every instant for the persisted list, the new booking included. -/
theorem saveBooking_preserves_capacity (now : Int) (store : Snapshot)
    (bookingData : BookingData)
    (hnn : ∀ b ∈ getBookings store, 0 ≤ b.numberOfRooms)
    (hcap : ∀ t : Int,
      (((getBookings store).filter (fun b => decide (b.startDate ≤ t ∧ t < b.endDate))).map
        (fun b => b.numberOfRooms)).sum ≤ 133)
    (hdates : bookingData.startDate < bookingData.endDate)
    (hrooms : 0 ≤ bookingData.numberOfRooms)
    (hok : (saveBooking now store bookingData).failed = false) :
    (Booking.mk bookingData now ∈ getBookings (saveBooking now store bookingData).store)
      ∧ ∀ t : Int,
        (((getBookings (saveBooking now store bookingData).store).filter
            (fun b => decide (b.startDate ≤ t ∧ t < b.endDate))).map
          (fun b => b.numberOfRooms)).sum ≤ 133 := by
  have _ := hdates
  have ha := ((saveBooking_failed_false_iff now store bookingData).1 hok).1
  refine ⟨?_, (saveBooking_preserves_load now store bookingData hnn hcap hrooms ha).2⟩
  rw [saveBooking_of_available now store bookingData ha, getBookings_bookings]
  exact List.mem_append_right _ (List.mem_singleton_self _)

/-- Witness of C24: a store with one booking of 100 rooms on 1-3 January, a
request for 33 rooms on 2-4 January, and the instant 12:00 on 2 January. -/
theorem saveBooking_preserves_capacity_witness :
    (((getBookings
        (saveBooking 7
          (Snapshot.bookings [stored 1 100 BookingStatus.confirmed (jan2024 1) (jan2024 3)])
          (candidate 33 BookingStatus.pencil (jan2024 2) (jan2024 4))).store).filter
          (fun b => decide (b.startDate ≤ atTime 19724 12 0 ∧ atTime 19724 12 0 < b.endDate))).map
        (fun b => b.numberOfRooms)).sum ≤ 133 :=
  (saveBooking_preserves_capacity 7
    (Snapshot.bookings [stored 1 100 BookingStatus.confirmed (jan2024 1) (jan2024 3)])
    (candidate 33 BookingStatus.pencil (jan2024 2) (jan2024 4))
    (by decide)
    (fun t => by
      simp only [getBookings, List.filter_cons, List.filter_nil]
      split <;> decide)
    (by decide) (by decide) (by decide)).2 (atTime 19724 12 0)

/-- After a check that reported `available = true`, and with non-negative
room counts, the availability test of `saveBooking` passes as well, because
the availability computed over the working set is at least the availability
computed over all stored bookings; so the capacity error is not thrown, and
the call returns the new booking when no pencil booking was overridden. -/
theorem saveBooking_available_after_check (now : Int) (store : Snapshot)
    (bookingData : BookingData)
    (hnn : ∀ b ∈ getBookings store, 0 ≤ b.numberOfRooms)
    (havail : (checkRoomAvailability store bookingData.startDate bookingData.endDate
      bookingData.numberOfRooms).available = true) :
    (saveBooking now store bookingData).insufficient = false
      ∧ ((bookingsForCheck bookingData (getBookings store)).2 = false →
          (saveBooking now store bookingData).result = Except.ok (Booking.mk bookingData now))
      ∧ (checkRoomAvailability store bookingData.startDate bookingData.endDate
            bookingData.numberOfRooms).availableRooms
          ≤ (calculateAvailabilityInternal bookingData.startDate bookingData.endDate
              bookingData.numberOfRooms
              (bookingsForCheck bookingData (getBookings store)).1).availableRooms := by
  have hsub := bookingsForCheck_sublist bookingData (getBookings store)
  have hmono : (checkRoomAvailability store bookingData.startDate bookingData.endDate
            bookingData.numberOfRooms).availableRooms
          ≤ (calculateAvailabilityInternal bookingData.startDate bookingData.endDate
              bookingData.numberOfRooms
              (bookingsForCheck bookingData (getBookings store)).1).availableRooms := by
    unfold checkRoomAvailability
    rw [calculateAvailabilityInternal_closed, calculateAvailabilityInternal_closed]
    exact minOver_mono _ _ _ _
      (fun d _ => bookedOn_sublist bookingData.startDate bookingData.endDate d hsub hnn)
  have ha : (calculateAvailabilityInternal bookingData.startDate bookingData.endDate
      bookingData.numberOfRooms
      (bookingsForCheck bookingData (getBookings store)).1).available = true := by
    have h1 : (checkRoomAvailability store bookingData.startDate bookingData.endDate
        bookingData.numberOfRooms).availableRooms ≥ bookingData.numberOfRooms := by
      unfold checkRoomAvailability at havail ⊢
      simpa [calculateAvailabilityInternal] using havail
    have h2 : (calculateAvailabilityInternal bookingData.startDate bookingData.endDate
        bookingData.numberOfRooms
        (bookingsForCheck bookingData (getBookings store)).1).availableRooms
          ≥ bookingData.numberOfRooms := le_trans h1 hmono
    simpa [calculateAvailabilityInternal] using h2
  refine ⟨?_, ?_, hmono⟩
  · rw [← Bool.not_eq_true]
    intro hins
    exact (saveBooking_insufficient_iff now store bookingData).1 hins ha
  · intro hflag
    rw [saveBooking_of_available now store bookingData ha, hflag]
    rfl

/-- C25, the code at the failing input: with a pencil booking of 100 rooms
stored on 1-3 January, `checkRoomAvailability` reports `available = true`
for 33 rooms on 2-4 January; `saveBooking` of a pencil candidate with that
interval and count succeeds, but `saveBooking` of a confirmed candidate
persists the new booking and then throws the `ReferenceError` of line 146,
so it does not succeed. -/
theorem saveBooking_after_check_throws :
    (checkRoomAvailability
        (Snapshot.bookings [stored 1 100 BookingStatus.pencil (jan2024 1) (jan2024 3)])
        (jan2024 2) (jan2024 4) 33).available = true
      ∧ (saveBooking 7
          (Snapshot.bookings [stored 1 100 BookingStatus.pencil (jan2024 1) (jan2024 3)])
          (candidate 33 BookingStatus.pencil (jan2024 2) (jan2024 4))).failed = false
      ∧ (saveBooking 7
          (Snapshot.bookings [stored 1 100 BookingStatus.pencil (jan2024 1) (jan2024 3)])
          (candidate 33 BookingStatus.confirmed (jan2024 2) (jan2024 4))).failed = true
      ∧ (saveBooking 7
          (Snapshot.bookings [stored 1 100 BookingStatus.pencil (jan2024 1) (jan2024 3)])
          (candidate 33 BookingStatus.confirmed (jan2024 2) (jan2024 4))).result
        = Except.error SaveFailure.referenceError
      ∧ (saveBooking 7
          (Snapshot.bookings [stored 1 100 BookingStatus.pencil (jan2024 1) (jan2024 3)])
          (candidate 33 BookingStatus.confirmed (jan2024 2) (jan2024 4))).store
        = Snapshot.bookings
            [Booking.mk (candidate 33 BookingStatus.confirmed (jan2024 2) (jan2024 4)) 7] := by
  refine ⟨by decide, by decide, by decide, rfl, by decide⟩

/-! ## Claims about time strings and unreadable snapshots -/

/-- C22, the claim as stated fails: for the text "25:00", whose hour 25 is
not in 0..23, and for the text "ab:cd", which does not parse to numbers,
`combineDateAndTime` does not fail; it returns 01:00 of the next day for the
first and an invalid date for the second. -/
theorem combineDateAndTime_no_error :
    (splitColon "25:00".data).map decimalNumber = [some 25, some 0]
      ∧ combineDateAndTime decimalNumber (atTime 19723 9 15) "25:00"
          = Except.ok (some (atTime 19724 1 0))
      ∧ (splitColon "ab:cd".data).map decimalNumber = [none, none]
      ∧ combineDateAndTime decimalNumber (atTime 19723 9 15) "ab:cd" = Except.ok none := by
  refine ⟨by decide, ?_, by decide, ?_⟩
  · rfl
  · rfl

/-- C22 as amended: `combineDateAndTime` never fails. When the first two
pieces of the text convert to the integers `h` and `m` it returns the instant
`h` hours and `m` minutes after the midnight of the date; for `h` in 0..23
and `m` in 0..59 that instant lies on the date's calendar day, at hour `h`
and minute `m`, with zero seconds and milliseconds. When the hour piece or
the minute piece does not convert to a number, or there is no minute piece,
it returns an invalid date. -/
theorem combineDateAndTime_spec (number : List Char → Option Int) (date : Int)
    (timeString : String) :
    (∃ d, combineDateAndTime number date timeString = Except.ok d)
      ∧ (∀ (h m : Int) (rest : List (Option Int)),
          (splitColon timeString.data).map number = some h :: some m :: rest →
            combineDateAndTime number date timeString
                = Except.ok (some (startOfDay date + h * 3600000 + m * 60000))
              ∧ (0 ≤ h ∧ h ≤ 23 ∧ 0 ≤ m ∧ m ≤ 59 →
                  dayOf (startOfDay date + h * 3600000 + m * 60000) = dayOf date
                    ∧ hourOf (startOfDay date + h * 3600000 + m * 60000) = h
                    ∧ minuteOf (startOfDay date + h * 3600000 + m * 60000) = m
                    ∧ msPastMinute (startOfDay date + h * 3600000 + m * 60000) = 0))
      ∧ (∀ rest : List (Option Int),
          (splitColon timeString.data).map number = none :: rest →
            combineDateAndTime number date timeString = Except.ok none)
      ∧ (∀ (h : Int) (rest : List (Option Int)),
          (splitColon timeString.data).map number = some h :: none :: rest →
            combineDateAndTime number date timeString = Except.ok none)
      ∧ (∀ h : Option Int,
          (splitColon timeString.data).map number = [h] →
            combineDateAndTime number date timeString = Except.ok none) := by
  refine ⟨⟨_, rfl⟩, ?_, ?_, ?_, ?_⟩
  · intro h m rest hparts
    refine ⟨?_, ?_⟩
    · unfold combineDateAndTime
      rw [hparts]
    · intro hr
      unfold hourOf minuteOf msPastMinute startOfDay dayOf msPerDay
      omega
  · intro rest hparts
    unfold combineDateAndTime
    rw [hparts]
  · intro h rest hparts
    unfold combineDateAndTime
    rw [hparts]
  · intro h hparts
    unfold combineDateAndTime
    rw [hparts]
    cases h <;> rfl

/-- Witness of C22: the text "14:30" on a date at 09:15 of day 19723. -/
theorem combineDateAndTime_spec_witness :
    combineDateAndTime decimalNumber (atTime 19723 9 15) "14:30"
      = Except.ok (some (startOfDay (atTime 19723 9 15) + 14 * 3600000 + 30 * 60000)) :=
  ((combineDateAndTime_spec decimalNumber (atTime 19723 9 15) "14:30").2.1 14 30 []
    (by decide)).1

theorem bookingsForCheck_nil (bookingData : BookingData) :
    (bookingsForCheck bookingData []).1 = [] :=
  List.sublist_nil.1 (bookingsForCheck_sublist bookingData [])

/-- C23, the claim as stated fails: with the unparsable snapshot "not json"
`getBookings` returns the empty list, `saveBooking` succeeds and replaces the
snapshot by the new booking alone, and `deleteBooking` succeeds and replaces
it by the empty list. -/
theorem unparsable_snapshot_is_overwritten :
    getBookings (Snapshot.unparsable "not json") = []
      ∧ (saveBooking 7 (Snapshot.unparsable "not json")
          (candidate 5 BookingStatus.pencil (jan2024 1) (jan2024 2))).failed = false
      ∧ (saveBooking 7 (Snapshot.unparsable "not json")
          (candidate 5 BookingStatus.pencil (jan2024 1) (jan2024 2))).store
          = Snapshot.bookings
              [Booking.mk (candidate 5 BookingStatus.pencil (jan2024 1) (jan2024 2)) 7]
      ∧ (saveBooking 7 (Snapshot.unparsable "not json")
          (candidate 5 BookingStatus.pencil (jan2024 1) (jan2024 2))).store
          ≠ Snapshot.unparsable "not json"
      ∧ (deleteBooking (Snapshot.unparsable "not json") 1).success = true
      ∧ (deleteBooking (Snapshot.unparsable "not json") 1).store = Snapshot.bookings []
      ∧ (deleteBooking (Snapshot.unparsable "not json") 1).store ≠ Snapshot.unparsable "not json" := by
  decide

/-- C23 as amended: if the persisted snapshot exists but cannot be parsed as
a booking collection, `getBookings` does not fail and returns the empty list;
`saveBooking` returns or throws what it does on the empty store, leaving the
snapshot as it was when it throws and replacing it by the list of the new
booking alone when it succeeds; `updateBooking` fails with 'Booking not
found' and leaves the snapshot as it was; `deleteBooking` succeeds and
replaces the snapshot by the empty list. -/
theorem unparsable_snapshot_spec (raw : String) (now : Int) (bookingData : BookingData)
    (bookingId : Int) (updatedData : Patch) :
    getBookings (Snapshot.unparsable raw) = []
      ∧ (saveBooking now (Snapshot.unparsable raw) bookingData).result
          = (saveBooking now Snapshot.absent bookingData).result
      ∧ ((saveBooking now (Snapshot.unparsable raw) bookingData).failed = true →
          (saveBooking now (Snapshot.unparsable raw) bookingData).store
            = Snapshot.unparsable raw)
      ∧ ((saveBooking now (Snapshot.unparsable raw) bookingData).failed = false →
          (saveBooking now (Snapshot.unparsable raw) bookingData).store
            = Snapshot.bookings [Booking.mk bookingData now])
      ∧ (updateBooking (Snapshot.unparsable raw) bookingId updatedData).result
          = Except.error "Booking not found"
      ∧ (updateBooking (Snapshot.unparsable raw) bookingId updatedData).store
          = Snapshot.unparsable raw
      ∧ (deleteBooking (Snapshot.unparsable raw) bookingId).success = true
      ∧ (deleteBooking (Snapshot.unparsable raw) bookingId).store = Snapshot.bookings [] := by
  have hflag : (bookingsForCheck bookingData (getBookings (Snapshot.unparsable raw))).2
      = false := by
    rw [← Bool.not_eq_true]
    intro h
    obtain ⟨_, b, hb, _⟩ := (bookingsForCheck_snd bookingData _).1 h
    simp [getBookings] at hb
  refine ⟨rfl, ?_, ?_, ?_, rfl, rfl, rfl, rfl⟩
  · unfold saveBooking
    simp only [getBookings]
    split <;> rfl
  · intro hf
    by_cases ha : (calculateAvailabilityInternal bookingData.startDate bookingData.endDate
        bookingData.numberOfRooms
        (bookingsForCheck bookingData (getBookings (Snapshot.unparsable raw))).1).available = true
    · have := (saveBooking_failed_false_iff now (Snapshot.unparsable raw) bookingData).2
        ⟨ha, hflag⟩
      rw [this] at hf
      exact absurd hf (by simp)
    · rw [saveBooking_of_not_available now _ bookingData ha]
  · intro hok
    have ha := ((saveBooking_failed_false_iff now (Snapshot.unparsable raw) bookingData).1 hok).1
    rw [saveBooking_of_available now _ bookingData ha]
    show Snapshot.bookings ((bookingsForCheck bookingData []).1 ++ _) = _
    rw [bookingsForCheck_nil]
    rfl

end HotelBooking
